import Mathlib

/-!
Verification development for the `roxy` prediction-market contract
(`src/src/contract.rs`, `src/src/state.rs`).

Shallow embedding conventions:
* `Amount` (linera's 18-decimal token type, a wrapper over `u128` counting
  atto-tokens) is modelled as `Nat` together with explicit saturation at
  `2^128 - 1`.  `Amount::from_tokens n` multiplies by `10^18` (saturating),
  `u128::from(amount)` returns the raw atto count, and
  `saturating_add`/`saturating_sub`/ordering act on the raw atto count.
* `Timestamp` (microseconds, `u64`) is modelled as `Nat`; the single place
  the contract uses `saturating_add` on timestamps saturates at `2^64 - 1`.
* `MapView`/`RegisterView` storage is modelled by association lists with
  replace-in-place insertion.  The string keys
  `format!("{:?}_{:?}_{}", player, period, start)` and
  `format!("{:?}_{}", period, start)` are modelled structurally as pairs /
  triples (the `Debug` encodings of the distinct components cannot collide,
  so key equality coincides).
* Outbound `prepare_message(..).send_to(..)` calls have no effect on the
  local chain state and are not modelled; every local state mutation is.
* Floating point (`win_rate : f64`, computed for display in leaderboard
  entries and ignored by every state-transition decision) is omitted from
  the embedded leaderboard entries; no claim depends on it.
* Fields of the Rust structures that no embedded code path reads or writes
  (registration/login times, reputation, best win streak, market bookkeeping
  beyond the creator, textual descriptions) are omitted; each omission is
  noted at the structure.
-/

namespace Roxy

/-- `u128::MAX`, the saturation bound of `Amount` arithmetic. -/
def U128MAX : Nat := 2 ^ 128 - 1

/-- `u64::MAX`, the saturation bound of `Timestamp` arithmetic. -/
def U64MAX : Nat := 2 ^ 64 - 1

/-- One token in atto-tokens (`Amount::DECIMAL_PLACES = 18`). -/
def ATTO : Nat := 10 ^ 18

/-- `u128` saturating addition (linera `Amount::saturating_add`). -/
def satAdd (a b : Nat) : Nat := min (a + b) U128MAX

/-- `u128` saturating multiplication (`u128::saturating_mul`). -/
def satMul (a b : Nat) : Nat := min (a * b) U128MAX

/-- `Amount::from_tokens`: scale a token count into atto-tokens,
saturating at `u128::MAX`. -/
def fromTokens (n : Nat) : Nat := min (n * ATTO) U128MAX

/-- `Amount::saturating_sub` is truncated subtraction, which is exactly
`Nat.sub`. -/
def satSub (a b : Nat) : Nat := a - b

/-- `u64` saturating addition, used for `period_start + duration`. -/
def satAdd64 (a b : Nat) : Nat := min (a + b) U64MAX

/-- Microseconds in one day (`24 * 60 * 60 * 1_000_000`). -/
def dayMicros : Nat := 24 * 60 * 60 * 1000000

/-- Microseconds in seven days. -/
def weekMicros : Nat := 7 * 24 * 60 * 60 * 1000000

/-- Microseconds in thirty days. -/
def monthMicros : Nat := 30 * 24 * 60 * 60 * 1000000

/-- `state.rs` `PriceOutcome`. -/
inductive PriceOutcome where
  | Rise
  | Fall
  | Neutral
deriving DecidableEq, Repr

/-- `state.rs` `PredictionPeriod`. -/
inductive PredictionPeriod where
  | Daily
  | Weekly
  | Monthly
deriving DecidableEq, Repr

/-- `state.rs` `MarketStatus`. -/
inductive MarketStatus where
  | Active
  | Closed
  | Resolved
  | Cancelled
deriving DecidableEq, Repr

/-- The `ContractError` variants reachable from the embedded code paths. -/
inductive ContractError where
  | InvalidOutcome
  | PlayerNotFound
  | MarketNotFound
  | NotAdmin
deriving DecidableEq, Repr

/-- `state.rs` `MarketPrice`: price plus the logical timestamp it carries. -/
structure MarketPrice where
  price : Nat
  timestamp : Nat
deriving DecidableEq, Repr

/-- `state.rs` `PeriodPriceData`. -/
structure PeriodPriceData where
  period_start : Nat
  period_end : Nat
  start_price : Option MarketPrice
  end_price : Option MarketPrice
  outcome : Option PriceOutcome
  resolved : Bool
deriving DecidableEq, Repr

/-- `state.rs` `PlayerPrediction`.  `player_id` is an `AccountOwner`,
modelled as `Nat`. -/
structure PlayerPrediction where
  player_id : Nat
  period : PredictionPeriod
  outcome : PriceOutcome
  prediction_time : Nat
  period_start : Nat
  resolved : Bool
  correct : Option Bool
deriving DecidableEq, Repr

/-- `state.rs` `AchievementRequirement` (complete enum). -/
inductive AchievementRequirement where
  | CreateMarket
  | FirstBuy
  | FirstSell
  | JoinGuild
  | ReachLevel (level : Nat)
  | WinMarkets (count : Nat)
  | WinStreak (streak : Nat)
  | TotalProfit (profit : Nat)
  | ParticipateInMarkets (count : Nat)
  | CreateMarkets (count : Nat)
deriving DecidableEq, Repr

/-- `state.rs` `Achievement`; the textual name and description are omitted
(no embedded code path reads them). -/
structure Achievement where
  id : Nat
  reward_tokens : Nat
  reward_xp : Nat
  requirement : AchievementRequirement
deriving DecidableEq, Repr

/-- `state.rs` `Player`.  Omitted (unread by every embedded path):
`registration_time`, `last_login`, `reputation`, `best_win_streak`. -/
structure Player where
  id : Nat
  display_name : Option String
  token_balance : Nat
  total_earned : Nat
  total_spent : Nat
  level : Nat
  experience_points : Nat
  markets_participated : Nat
  markets_won : Nat
  total_profit : Nat
  win_streak : Nat
  guild_id : Option Nat
  achievements_earned : List Nat
  active_markets : List Nat
deriving DecidableEq, Repr

/-- `state.rs` `Market`, reduced to the single field the embedded paths
read (`market.creator`, in the achievement requirement checks). -/
structure Market where
  creator : Nat
deriving DecidableEq, Repr

/-- `state.rs` `Guild`, reduced to the fields the embedded paths read:
the member list (reward/penalty cascade) and the name (leaderboard). -/
structure Guild where
  name : String
  members : List Nat
deriving DecidableEq, Repr

/-- `state.rs` `LeaderboardEntry` (the `f64` `win_rate` is omitted, see
the header note). -/
structure LeaderboardEntry where
  player_id : Nat
  display_name : Option String
  total_profit : Nat
  level : Nat
deriving DecidableEq, Repr

/-- `state.rs` `GuildLeaderboardEntry`. -/
structure GuildLeaderboardEntry where
  guild_id : Nat
  name : String
  total_profit : Nat
  member_count : Nat
deriving DecidableEq, Repr

/-- `state.rs` `Leaderboard`. -/
structure Leaderboard where
  top_traders : List LeaderboardEntry
  top_guilds : List GuildLeaderboardEntry
  last_updated : Nat
deriving DecidableEq, Repr

/-- `state.rs` `GlobalPlayerInfo`. -/
structure GlobalPlayerInfo where
  player_id : Nat
  display_name : Option String
  chain_id : Nat
  total_earned : Nat
  total_profit : Nat
  level : Nat
  last_updated : Nat
deriving DecidableEq, Repr

/-- `state.rs` `GlobalMarketInfo`. -/
structure GlobalMarketInfo where
  market_id : Nat
  creator : Nat
  title : String
  chain_id : Nat
  status : MarketStatus
  created_at : Nat
deriving DecidableEq, Repr

/-- `state.rs` `GlobalGuildInfo`. -/
structure GlobalGuildInfo where
  guild_id : Nat
  name : String
  founder : Nat
  chain_id : Nat
  member_count : Nat
  total_guild_profit : Nat
  created_at : Nat
deriving DecidableEq, Repr

/-- `state.rs` `GameConfig`, reduced to the single field the embedded
paths read (`config.admin`). -/
structure GameConfig where
  admin : Option Nat
deriving DecidableEq, Repr

/-- The message enum exactly as `contract.rs` consumes it in
`execute_message` (the cross-chain variants carry a `message_id`).
Local-event payloads that the handler ignores are kept abstract only where
the handler ignores the whole variant. -/
inductive Message where
  | MarketCreated (market_id creator : Nat)
  | MarketResolved (market_id winning_outcome : Nat)
  | TradeExecuted (player_id market_id outcome_id shares price : Nat)
  | PlayerLeveledUp (player_id new_level : Nat)
  | AchievementUnlocked (player_id achievement_id : Nat)
  | GuildCreated (guild_id : Nat) (name : String)
  | PredictionMade (player_id : Nat) (period : PredictionPeriod)
      (outcome : PriceOutcome)
  | PredictionResolved (player_id : Nat) (period : PredictionPeriod)
      (correct : Bool)
  | GlobalMarketCreated (market_id creator : Nat) (title : String)
      (chain_id : Nat) (message_id : String)
  | GlobalPlayerRegistered (player_id : Nat) (display_name : Option String)
      (chain_id : Nat) (message_id : String)
  | GlobalPlayerUpdated (player_id total_earned total_profit level chain_id
      timestamp : Nat) (message_id : String)
  | GlobalGuildCreated (guild_id : Nat) (name : String) (founder chain_id : Nat)
      (message_id : String)
  | GlobalLeaderboardUpdate (player_id total_profit level chain_id : Nat)
  | GlobalPriceUpdate (price timestamp chain_id : Nat) (message_id : String)
  | ChainRegistered (chain_id timestamp : Nat)
deriving DecidableEq, Repr

/-- Association-list lookup (`MapView::get`). -/
def lookupA {κ α : Type} [DecidableEq κ] : List (κ × α) → κ → Option α
  | [], _ => none
  | (k, v) :: rest, key => if k = key then some v else lookupA rest key

/-- Association-list insert with in-place replacement (`MapView::insert`). -/
def insertA {κ α : Type} [DecidableEq κ] : List (κ × α) → κ → α → List (κ × α)
  | [], key, val => [(key, val)]
  | (k, v) :: rest, key, val =>
      if k = key then (key, val) :: rest else (k, v) :: insertA rest key val

/-- `MapView::contains_key`. -/
def containsA {κ α : Type} [DecidableEq κ] (l : List (κ × α)) (key : κ) : Bool :=
  (lookupA l key).isSome

/-- The full contract state as `contract.rs` uses it (`PredictionMarketState`
plus the `processed_message_ids` map the contract reads and writes). -/
structure State where
  config : GameConfig
  markets : List (Nat × Market)
  players : List (Nat × Player)
  leaderboard : Leaderboard
  guilds : List (Nat × Guild)
  achievements : List (Nat × Achievement)
  total_supply : Nat
  predictions : List ((Nat × PredictionPeriod × Nat) × PlayerPrediction)
  period_prices : List ((PredictionPeriod × Nat) × PeriodPriceData)
  current_market_price : MarketPrice
  global_players : List (Nat × GlobalPlayerInfo)
  global_markets : List (Nat × GlobalMarketInfo)
  global_guilds : List (Nat × GlobalGuildInfo)
  global_leaderboard : Leaderboard
  subscribed_chains : List (Nat × Nat)
  processed_message_ids : List (String × Nat)
deriving DecidableEq, Repr

/-- `calculate_outcome_from_prices`: compare the end price to the initial
price. -/
def calculateOutcomeFromPrices (initial_price end_price : Nat) : PriceOutcome :=
  if end_price > initial_price then PriceOutcome.Rise
  else if end_price < initial_price then PriceOutcome.Fall
  else PriceOutcome.Neutral

/-- `get_daily_period_start`: round the timestamp down to a day boundary. -/
def getDailyPeriodStart (t : Nat) : Nat := t / dayMicros * dayMicros

/-- `get_weekly_period_start`. -/
def getWeeklyPeriodStart (t : Nat) : Nat := t / weekMicros * weekMicros

/-- `get_monthly_period_start`. -/
def getMonthlyPeriodStart (t : Nat) : Nat := t / monthMicros * monthMicros

/-- The window start for a period kind, as `resolve_expired_predictions`
and the three `predict_*_outcome` functions derive it from the current
time. -/
def periodStartOf (period : PredictionPeriod) (t : Nat) : Nat :=
  match period with
  | .Daily => getDailyPeriodStart t
  | .Weekly => getWeeklyPeriodStart t
  | .Monthly => getMonthlyPeriodStart t

/-- The fixed window duration per period kind, in microseconds. -/
def periodDuration (period : PredictionPeriod) : Nat :=
  match period with
  | .Daily => dayMicros
  | .Weekly => weekMicros
  | .Monthly => monthMicros

/-- The reward/penalty tier in whole tokens (Daily 100, Weekly 500,
Monthly 1000), as written in `award_prediction_reward`,
`penalize_prediction_loss` and the guild variants. -/
def rewardTier (period : PredictionPeriod) : Nat :=
  match period with
  | .Daily => 100
  | .Weekly => 500
  | .Monthly => 1000

/-- Individual XP reward per period kind (`award_prediction_reward`). -/
def xpTier (period : PredictionPeriod) : Nat :=
  match period with
  | .Daily => 50
  | .Weekly => 250
  | .Monthly => 500

/-- Guild-member XP reward per period kind
(`award_guild_prediction_reward`). -/
def guildXpTier (period : PredictionPeriod) : Nat :=
  match period with
  | .Daily => 25
  | .Weekly => 125
  | .Monthly => 250

/-- Total XP needed to leave level `l`
(`add_experience`: 1000 for level 1, else `1000 * 4^(l-1)`). -/
def levelNeeded (l : Nat) : Nat :=
  if l = 1 then 1000 else 1000 * 4 ^ (l - 1)

/-- The climb of `add_experience`'s `while` loop, with an explicit
iteration bound.  One climb step requires `levelNeeded l ≤ xp` and
`l + 1 ≤ levelNeeded l`, so the level can only climb while it is at most
`xp`; a budget of `xp + 1 - l` steps is therefore exact
(`levelLoop_eq` below recovers the unbounded loop equation). -/
def levelClimb (xp : Nat) : Nat → Nat → Nat
  | 0, l => l
  | fuel + 1, l =>
    if 1 ≤ l ∧ levelNeeded l ≤ xp then levelClimb xp fuel (l + 1) else l

/-- The `while` loop of `add_experience`: climb levels while the total XP
reaches the threshold of the current level.  (The Rust loop guard
`player.level >= 1` is part of the condition.) -/
def levelLoop (xp l : Nat) : Nat := levelClimb xp (xp + 1 - l) l

/-- `check_achievement_requirement` (a pure read of the player and the
markets map; the `ViewError` plumbing cannot fire). -/
def checkAchievementRequirement (s : State) (p : Player)
    (r : AchievementRequirement) : Bool :=
  match r with
  | .CreateMarket => decide (1 ≤ createdCount s p)
  | .FirstBuy => decide (0 < p.markets_participated)
  | .FirstSell => decide (0 < p.total_spent)
  | .JoinGuild => p.guild_id.isSome
  | .ReachLevel level => decide (level ≤ p.level)
  | .WinMarkets count => decide (count ≤ p.markets_won)
  | .WinStreak streak => decide (streak ≤ p.win_streak)
  | .TotalProfit profit => decide (profit ≤ p.total_profit)
  | .ParticipateInMarkets count => decide (count ≤ p.markets_participated)
  | .CreateMarkets count => decide (count ≤ createdCount s p)
where
  /-- The count of the player's active markets whose creator is the
  player. -/
  createdCount (s : State) (p : Player) : Nat :=
    p.active_markets.foldl
      (fun c mid =>
        match lookupA s.markets mid with
        | some m => if m.creator = p.id then c + 1 else c
        | none => c)
      0

/-- The body of `check_achievements`' loop over achievement ids 1..=7,
threading the mutating player copy and whether any achievement was newly
earned. -/
def checkAchievementsLoop (s : State) : List Nat → Player → Bool →
    Player × Bool
  | [], p, anyNew => (p, anyNew)
  | aid :: rest, p, anyNew =>
    match lookupA s.achievements aid with
    | none => checkAchievementsLoop s rest p anyNew
    | some a =>
      if aid ∈ p.achievements_earned then
        checkAchievementsLoop s rest p anyNew
      else if checkAchievementRequirement s p a.requirement then
        let p1 := { p with
          achievements_earned := p.achievements_earned ++ [aid],
          token_balance := satAdd p.token_balance a.reward_tokens,
          total_earned := satAdd p.total_earned a.reward_tokens,
          experience_points := p.experience_points + a.reward_xp }
        checkAchievementsLoop s rest p1 true
      else checkAchievementsLoop s rest p anyNew

/-- `check_achievements`: award every newly satisfied achievement to the
in-flight player copy and, if any was awarded, write the player back. -/
def checkAchievements (s : State) (p : Player) : State × Player :=
  let (p1, anyNew) := checkAchievementsLoop s [1, 2, 3, 4, 5, 6, 7] p false
  if anyNew then ({ s with players := insertA s.players p1.id p1 }, p1)
  else (s, p1)

/-- `add_experience`: add XP, run the level loop, and on a level-up run the
achievement check (which may write the player into storage). -/
def addExperience (s : State) (p : Player) (xp : Nat) : State × Player :=
  let p1 := { p with experience_points := p.experience_points + xp }
  let oldLevel := p1.level
  let newLevel := levelLoop p1.experience_points p1.level
  let p2 := { p1 with level := newLevel }
  if oldLevel < newLevel then checkAchievements s p2 else (s, p2)

/-- Stable insertion of `x` into a list ordered by the strict comparator
`lt`: `x` goes before the first element it strictly precedes. -/
def insSorted {α : Type} (lt : α → α → Bool) (x : α) : List α → List α
  | [] => [x]
  | y :: ys => if lt x y then x :: y :: ys else y :: insSorted lt x ys

/-- Stable sort by a strict comparator, modelling Rust's stable
`sort_by` with a descending comparator: ties keep the original order. -/
def sortByDesc {α : Type} (lt : α → α → Bool) (l : List α) : List α :=
  l.foldl (fun acc x => insSorted lt x acc) []

/-- `update_enhanced_leaderboard`: full rebuild of the local leaderboard
from the players and guilds maps (iterated in stored order), ranking
players by `total_earned` (top 50) and guilds by the sum of member
`total_earned` (top 20). -/
def updateEnhancedLeaderboard (s : State) (t : Nat) : State :=
  let playerScores := s.players.map (fun kv => (kv.1, kv.2, kv.2.total_earned))
  let sorted := sortByDesc (fun a b => decide (b.2.2 < a.2.2)) playerScores
  let topTraders := (sorted.take 50).map (fun e =>
    { player_id := e.1, display_name := e.2.1.display_name,
      total_profit := e.2.1.total_earned, level := e.2.1.level
      : LeaderboardEntry })
  let guildTotals := s.guilds.map (fun kv =>
    let total := kv.2.members.foldl
      (fun acc mid =>
        match lookupA s.players mid with
        | some m => satAdd acc m.total_earned
        | none => acc)
      0
    (kv.1, kv.2.name, total, kv.2.members.length))
  let sortedG := sortByDesc (fun a b => decide (b.2.2.1 < a.2.2.1)) guildTotals
  let topGuilds := (sortedG.take 20).map (fun e =>
    { guild_id := e.1, name := e.2.1, total_profit := e.2.2.1,
      member_count := e.2.2.2 : GuildLeaderboardEntry })
  { s with leaderboard :=
      { top_traders := topTraders, top_guilds := topGuilds,
        last_updated := t } }

/-- The local-state effect of `broadcast_global_player_updated`: refresh
the local global-player projection if present.  (The outbound fan-out has
no local effect.) -/
def broadcastGlobalPlayerUpdated (s : State) (chainId pid earned profit lvl
    t : Nat) : State :=
  match lookupA s.global_players pid with
  | some gp =>
      let gp1 := { gp with
        total_earned := earned,
        total_profit := profit,
        level := lvl,
        chain_id := chainId,
        last_updated := t }
      { s with global_players := insertA s.global_players pid gp1 }
  | none => s

/-- `award_prediction_reward`: pay the tier reward and XP to the player,
mint the reward into the total supply, rebuild the leaderboard and refresh
the global projection. -/
def awardPredictionReward (s : State) (pid : Nat) (period : PredictionPeriod)
    (chainId t : Nat) : State × Option ContractError :=
  match lookupA s.players pid with
  | none => (s, some .PlayerNotFound)
  | some player =>
    let reward := fromTokens (rewardTier period)
    let p1 := { player with
      token_balance := satAdd player.token_balance reward,
      total_earned := satAdd player.total_earned reward }
    let sp := addExperience s p1 (xpTier period)
    let s2 := { sp.1 with players := insertA sp.1.players pid sp.2 }
    let s3 := { s2 with total_supply := satAdd s2.total_supply reward }
    let s4 := updateEnhancedLeaderboard s3 t
    let s5 := broadcastGlobalPlayerUpdated s4 chainId pid sp.2.total_earned
      sp.2.total_profit sp.2.level t
    (s5, none)

/-- `penalize_prediction_loss`: deduct the tier penalty clamped at the
player's balance, then burn `penalty.min(total_supply)` from the supply. -/
def penalizePredictionLoss (s : State) (pid : Nat)
    (period : PredictionPeriod) : State × Option ContractError :=
  match lookupA s.players pid with
  | none => (s, some .PlayerNotFound)
  | some player =>
    let penalty := fromTokens (rewardTier period)
    let p1 :=
      if penalty ≤ player.token_balance then
        { player with
          token_balance := satSub player.token_balance penalty,
          total_spent := satAdd player.total_spent penalty }
      else
        { player with
          token_balance := 0,
          total_spent := satAdd player.total_spent player.token_balance }
    let s1 := { s with players := insertA s.players pid p1 }
    let s2 := { s1 with
      total_supply := satSub s1.total_supply (min penalty s1.total_supply) }
    (s2, none)

/-- The member loop of `award_guild_prediction_reward`: each member in
list order gets the same (unscaled) reward and the guild XP tier; a
missing member aborts with `PlayerNotFound`, keeping earlier awards. -/
def awardMembersLoop (reward xpR : Nat) : State → List Nat →
    State × Option ContractError
  | s, [] => (s, none)
  | s, mid :: rest =>
    match lookupA s.players mid with
    | none => (s, some .PlayerNotFound)
    | some member =>
      let m1 := { member with
        token_balance := satAdd member.token_balance reward,
        total_earned := satAdd member.total_earned reward }
      let sp := addExperience s m1 xpR
      let s2 := { sp.1 with players := insertA sp.1.players mid sp.2 }
      awardMembersLoop reward xpR s2 rest

/-- `award_guild_prediction_reward`: if the player is in a guild, award
the tier reward to every member, then add
`Amount::from_tokens(reward_attos * member_count)` to the total supply
(the source converts the atto-denominated reward back through the
token scaling) and rebuild the leaderboard. -/
def awardGuildPredictionReward (s : State) (pid : Nat)
    (period : PredictionPeriod) (t : Nat) : State × Option ContractError :=
  match lookupA s.players pid with
  | none => (s, some .PlayerNotFound)
  | some player =>
    match player.guild_id with
    | none => (s, none)
    | some gid =>
      match lookupA s.guilds gid with
      | none => (s, none)
      | some guild =>
        let reward := fromTokens (rewardTier period)
        match awardMembersLoop reward (guildXpTier period) s guild.members with
        | (s1, some e) => (s1, some e)
        | (s1, none) =>
          let totalReward := fromTokens (satMul reward guild.members.length)
          let s2 := { s1 with
            total_supply := satAdd s1.total_supply totalReward }
          (updateEnhancedLeaderboard s2 t, none)

/-- The member loop of `penalize_guild_prediction_loss`: each member in
list order loses the tier penalty clamped at their balance; a missing
member aborts with `PlayerNotFound`, keeping earlier deductions. -/
def penaltyMembersLoop (penalty : Nat) : State → List Nat →
    State × Option ContractError
  | s, [] => (s, none)
  | s, mid :: rest =>
    match lookupA s.players mid with
    | none => (s, some .PlayerNotFound)
    | some member =>
      let m1 :=
        if penalty ≤ member.token_balance then
          { member with
            token_balance := satSub member.token_balance penalty,
            total_spent := satAdd member.total_spent penalty }
        else
          { member with
            token_balance := 0,
            total_spent := satAdd member.total_spent member.token_balance }
      let s2 := { s with players := insertA s.players mid m1 }
      penaltyMembersLoop penalty s2 rest

/-- `penalize_guild_prediction_loss`: if the player is in a guild, deduct
the clamped tier penalty from every member, then burn
`min(Amount::from_tokens(penalty_attos * member_count), total_supply)`
from the supply. -/
def penalizeGuildPredictionLoss (s : State) (pid : Nat)
    (period : PredictionPeriod) : State × Option ContractError :=
  match lookupA s.players pid with
  | none => (s, some .PlayerNotFound)
  | some player =>
    match player.guild_id with
    | none => (s, none)
    | some gid =>
      match lookupA s.guilds gid with
      | none => (s, none)
      | some guild =>
        let penalty := fromTokens (rewardTier period)
        match penaltyMembersLoop penalty s guild.members with
        | (s1, some e) => (s1, some e)
        | (s1, none) =>
          let totalPenalty := fromTokens (satMul penalty guild.members.length)
          let toBurn := min totalPenalty s1.total_supply
          ({ s1 with total_supply := satSub s1.total_supply toBurn }, none)

/-- The reward/penalty dispatch at the end of `resolve_prediction`:
correct → individual award then guild award; wrong → individual penalty
then guild penalty; an error in the first step short-circuits the second
(the `?` operator), keeping the first step's mutations. -/
def resolveCascade (s : State) (pid : Nat) (period : PredictionPeriod)
    (chainId t : Nat) (isCorrect : Bool) : State × Option ContractError :=
  if isCorrect then
    match awardPredictionReward s pid period chainId t with
    | (s3, some e) => (s3, some e)
    | (s3, none) => awardGuildPredictionReward s3 pid period t
  else
    match penalizePredictionLoss s pid period with
    | (s3, some e) => (s3, some e)
    | (s3, none) => penalizeGuildPredictionLoss s3 pid period

/-- `resolve_prediction`: skip if already resolved; otherwise, when the
window has both snapshots, derive the outcome, write the resolved window
and prediction back, and run the reward/penalty cascade (individual award
or penalty followed by the guild variant, as in the source).  `t` is the
block time `runtime.system_time()`. -/
def resolvePrediction (s : State) (pred : PlayerPrediction)
    (period : PredictionPeriod) (periodStart : Nat) (chainId t : Nat) :
    State × Option ContractError :=
  if pred.resolved then (s, none)
  else
    match lookupA s.period_prices (period, periodStart) with
    | none => (s, none)
    | some pd =>
      match pd.start_price, pd.end_price with
      | some ip, some ep =>
        let actual := calculateOutcomeFromPrices ip.price ep.price
        let isCorrect := decide (pred.outcome = actual)
        let pred1 := { pred with resolved := true, correct := some isCorrect }
        let pd1 := { pd with outcome := some actual, resolved := true }
        let s1 := { s with
          period_prices := insertA s.period_prices (period, periodStart) pd1 }
        let s2 := { s1 with
          predictions :=
            insertA s1.predictions (pred.player_id, period, periodStart) pred1 }
        resolveCascade s2 pred.player_id period chainId t isCorrect
      | _, _ => (s, none)

/-- The per-key loop at the end of `resolve_expired_predictions`: re-read
each collected prediction and resolve it if still unresolved (resolution
errors are discarded with `let _ =`). -/
def resolveKeysLoop (period : PredictionPeriod) (periodStart chainId t : Nat) :
    State → List (Nat × PredictionPeriod × Nat) → State
  | s, [] => s
  | s, k :: rest =>
    let s1 :=
      match lookupA s.predictions k with
      | none => s
      | some pred =>
        if !pred.resolved then
          (resolvePrediction s pred period periodStart chainId t).1
        else s
    resolveKeysLoop period periodStart chainId t s1 rest

/-- One period kind of `resolve_expired_predictions`' sweep: look up the
window of the *current* period (derived from `current_time`), and if that
window's end has been reached, capture missing snapshots from the current
price and resolve its unresolved predictions. -/
def resolveExpiredStep (ct chainId : Nat) (s : State)
    (period : PredictionPeriod) : State :=
  let periodStart := periodStartOf period ct
  match lookupA s.period_prices (period, periodStart) with
  | none => s
  | some pd =>
    if pd.period_end ≤ ct then
      let sp1 :=
        if pd.start_price.isNone then
          let pd' := { pd with start_price := some s.current_market_price }
          ({ s with
             period_prices := insertA s.period_prices (period, periodStart) pd' },
           pd')
        else (s, pd)
      let sp2 :=
        if sp1.2.end_price.isNone then
          let pd' := { sp1.2 with
            end_price := some sp1.1.current_market_price }
          ({ sp1.1 with
             period_prices :=
               insertA sp1.1.period_prices (period, periodStart) pd' },
           pd')
        else sp1
      let keys := (sp2.1.predictions.filter
        (fun kv => kv.1.2.1 = period ∧ kv.1.2.2 = periodStart ∧
          !kv.2.resolved)).map (·.1)
      resolveKeysLoop period periodStart chainId ct sp2.1 keys
    else s

/-- `resolve_expired_predictions`: sweep the Daily, Weekly and Monthly
period kinds in order. -/
def resolveExpiredPredictions (s : State) (ct chainId : Nat) : State :=
  [PredictionPeriod.Daily, PredictionPeriod.Weekly,
    PredictionPeriod.Monthly].foldl (resolveExpiredStep ct chainId) s

/-- `update_market_price` (oracle/admin operation): admin gate, then
unconditionally store the new `MarketPrice` (price plus `current_time`),
broadcast (no local effect) and run the expiry sweep. -/
def updateMarketPrice (s : State) (caller price ct chainId : Nat) :
    State × Option ContractError :=
  match s.config.admin with
  | none => (s, some .NotAdmin)
  | some admin =>
    if caller ≠ admin then (s, some .NotAdmin)
    else
      let s1 := { s with
        current_market_price := { price := price, timestamp := ct } }
      (resolveExpiredPredictions s1 ct chainId, none)

/-- The shared body of `predict_daily_outcome`, `predict_weekly_outcome`
and `predict_monthly_outcome` (the three source functions are identical up
to the period constants): reject a duplicate prediction for the (player,
window) pair, otherwise create the prediction and, if absent, the window
with the current price as start snapshot. -/
def predictOutcomeCore (s : State) (pid : Nat) (o : PriceOutcome) (ct : Nat)
    (period : PredictionPeriod) : State × Option ContractError :=
  match lookupA s.players pid with
  | none => (s, some .PlayerNotFound)
  | some _ =>
    let periodStart := periodStartOf period ct
    if containsA s.predictions (pid, period, periodStart) then
      (s, some .InvalidOutcome)
    else
      let pred : PlayerPrediction := {
        player_id := pid,
        period := period,
        outcome := o,
        prediction_time := ct,
        period_start := periodStart,
        resolved := false,
        correct := none }
      let s1 := { s with
        predictions := insertA s.predictions (pid, period, periodStart) pred }
      if containsA s1.period_prices (period, periodStart) then (s1, none)
      else
        let pd : PeriodPriceData := {
          period_start := periodStart,
          period_end := satAdd64 periodStart (periodDuration period),
          start_price := some s1.current_market_price,
          end_price := none,
          outcome := none,
          resolved := false }
        ({ s1 with
           period_prices := insertA s1.period_prices (period, periodStart) pd },
         none)

/-- `predict_daily_outcome`. -/
def predictDailyOutcome (s : State) (pid : Nat) (o : PriceOutcome)
    (ct : Nat) : State × Option ContractError :=
  predictOutcomeCore s pid o ct .Daily

/-- `predict_weekly_outcome`. -/
def predictWeeklyOutcome (s : State) (pid : Nat) (o : PriceOutcome)
    (ct : Nat) : State × Option ContractError :=
  predictOutcomeCore s pid o ct .Weekly

/-- `predict_monthly_outcome`. -/
def predictMonthlyOutcome (s : State) (pid : Nat) (o : PriceOutcome)
    (ct : Nat) : State × Option ContractError :=
  predictOutcomeCore s pid o ct .Monthly

/-- `is_message_processed`. -/
def isMessageProcessed (s : State) (id : String) : Bool :=
  (lookupA s.processed_message_ids id).isSome

/-- `mark_message_processed` (records the block time of first
processing). -/
def markMessageProcessed (s : State) (id : String) (t : Nat) : State :=
  { s with processed_message_ids := insertA s.processed_message_ids id t }

/-- `update_global_leaderboard`: rebuild the top-50 trader list of the
global leaderboard from the global player projections (descending total
profit, ties by descending level, stable). -/
def updateGlobalLeaderboard (s : State) (t : Nat) : State :=
  let sorted := sortByDesc
    (fun a b => decide (b.2.total_profit < a.2.total_profit) ||
      (decide (a.2.total_profit = b.2.total_profit) &&
        decide (b.2.level < a.2.level)))
    s.global_players
  let topTraders := (sorted.take 50).map (fun e =>
    { player_id := e.1,
      display_name := e.2.display_name,
      total_profit := e.2.total_profit,
      level := e.2.level : LeaderboardEntry })
  { s with global_leaderboard := { s.global_leaderboard with
      top_traders := topTraders,
      last_updated := t } }

/-- `update_global_leaderboard_with_player`: refresh one projection (if
present) and rebuild the global leaderboard. -/
def updateGlobalLeaderboardWithPlayer (s : State)
    (pid totalProfit lvl t : Nat) : State :=
  let s1 :=
    match lookupA s.global_players pid with
    | some gp =>
        let gp1 := { gp with
          total_profit := totalProfit,
          level := lvl,
          last_updated := t }
        { s with global_players := insertA s.global_players pid gp1 }
    | none => s
  updateGlobalLeaderboard s1 t

/-- `execute_message`, with `t` the receiving chain's block time
(`runtime.system_time()`).  Local-event variants are no-ops; the
cross-chain variants carrying a `message_id` are gated by the idempotency
store; `GlobalLeaderboardUpdate` and `ChainRegistered` are not gated. -/
def executeMessage (s : State) (m : Message) (t : Nat) : State :=
  match m with
  | .MarketCreated _ _ => s
  | .MarketResolved _ _ => s
  | .TradeExecuted _ _ _ _ _ => s
  | .PlayerLeveledUp _ _ => s
  | .AchievementUnlocked _ _ => s
  | .GuildCreated _ _ => s
  | .PredictionMade _ _ _ => s
  | .PredictionResolved _ _ _ => s
  | .GlobalMarketCreated market_id creator title chain_id message_id =>
    if isMessageProcessed s message_id then s
    else
      let s1 :=
        if (lookupA s.global_markets market_id).isNone then
          let gm : GlobalMarketInfo := {
            market_id := market_id,
            creator := creator,
            title := title,
            chain_id := chain_id,
            status := .Active,
            created_at := t }
          { s with global_markets := insertA s.global_markets market_id gm }
        else s
      markMessageProcessed s1 message_id t
  | .GlobalPlayerRegistered player_id display_name chain_id message_id =>
    if isMessageProcessed s message_id then s
    else
      let s1 :=
        if (lookupA s.global_players player_id).isNone then
          let gp : GlobalPlayerInfo := {
            player_id := player_id,
            display_name := display_name,
            chain_id := chain_id,
            total_earned := 0,
            total_profit := 0,
            level := 1,
            last_updated := t }
          { s with global_players := insertA s.global_players player_id gp }
        else s
      markMessageProcessed s1 message_id t
  | .GlobalPlayerUpdated player_id total_earned total_profit lvl chain_id
      timestamp message_id =>
    if isMessageProcessed s message_id then s
    else
      let s1 :=
        match lookupA s.global_players player_id with
        | some gp =>
          if gp.last_updated < timestamp then
            let gp1 := { gp with
              total_earned := total_earned,
              total_profit := total_profit,
              level := lvl,
              chain_id := chain_id,
              last_updated := timestamp }
            let s' := { s with
              global_players := insertA s.global_players player_id gp1 }
            updateGlobalLeaderboard s' t
          else s
        | none => s
      markMessageProcessed s1 message_id t
  | .GlobalGuildCreated guild_id name founder chain_id message_id =>
    if isMessageProcessed s message_id then s
    else
      let s1 :=
        if (lookupA s.global_guilds guild_id).isNone then
          let gg : GlobalGuildInfo := {
            guild_id := guild_id,
            name := name,
            founder := founder,
            chain_id := chain_id,
            member_count := 1,
            total_guild_profit := 0,
            created_at := t }
          { s with global_guilds := insertA s.global_guilds guild_id gg }
        else s
      markMessageProcessed s1 message_id t
  | .GlobalLeaderboardUpdate player_id total_profit lvl _chain_id =>
    updateGlobalLeaderboardWithPlayer s player_id total_profit lvl t
  | .GlobalPriceUpdate price timestamp _chain_id message_id =>
    if isMessageProcessed s message_id then s
    else
      let s1 :=
        if s.current_market_price.timestamp < timestamp then
          { s with
            current_market_price := { price := price, timestamp := timestamp } }
        else s
      markMessageProcessed s1 message_id t
  | .ChainRegistered chain_id timestamp =>
    { s with subscribed_chains := insertA s.subscribed_chains chain_id timestamp }

/-- The prediction-engine operations (the operation surface the claims
about window/prediction immutability quantify over). -/
inductive Op where
  | PredictDaily (pid : Nat) (o : PriceOutcome)
  | PredictWeekly (pid : Nat) (o : PriceOutcome)
  | PredictMonthly (pid : Nat) (o : PriceOutcome)
  | UpdateMarketPrice (caller price : Nat)
deriving DecidableEq, Repr

/-- Apply an operation at block time `ct`, discarding the error like
`execute_operation`'s `let _ = ...`. -/
def applyOp (s : State) (op : Op) (ct chainId : Nat) : State :=
  match op with
  | .PredictDaily pid o => (predictDailyOutcome s pid o ct).1
  | .PredictWeekly pid o => (predictWeeklyOutcome s pid o ct).1
  | .PredictMonthly pid o => (predictMonthlyOutcome s pid o ct).1
  | .UpdateMarketPrice caller price =>
    (updateMarketPrice s caller price ct chainId).1


/-! ## Concrete fixtures used by witnesses and counterexamples -/

/-- An empty leaderboard. -/
def emptyLeaderboard : Leaderboard :=
  { top_traders := [], top_guilds := [], last_updated := 0 }

/-- A baseline state: admin is player 1, everything else empty. -/
def baseState : State := {
  config := { admin := some 1 },
  markets := [],
  players := [],
  leaderboard := emptyLeaderboard,
  guilds := [],
  achievements := [],
  total_supply := 0,
  predictions := [],
  period_prices := [],
  current_market_price := { price := 0, timestamp := 0 },
  global_players := [],
  global_markets := [],
  global_guilds := [],
  global_leaderboard := emptyLeaderboard,
  subscribed_chains := [],
  processed_message_ids := [] }

/-- A freshly registered level-1 player with the given balance and guild. -/
def mkPlayer (pid bal : Nat) (g : Option Nat) : Player := {
  id := pid,
  display_name := none,
  token_balance := bal,
  total_earned := 0,
  total_spent := 0,
  level := 1,
  experience_points := 0,
  markets_participated := 0,
  markets_won := 0,
  total_profit := 0,
  win_streak := 0,
  guild_id := g,
  achievements_earned := [],
  active_markets := [] }

/-- The unresolved daily prediction of the late-update scenario: player 2
predicted Rise for the daily window starting at time 0. -/
def c1pred : PlayerPrediction := {
  player_id := 2,
  period := .Daily,
  outcome := .Rise,
  prediction_time := 1000,
  period_start := 0,
  resolved := false,
  correct := none }

/-- The daily window of the late-update scenario: opened at time 0 with
start price 50000 tokens, ends 24 hours later, no end snapshot yet. -/
def c1window : PeriodPriceData := {
  period_start := 0,
  period_end := dayMicros,
  start_price := some { price := fromTokens 50000, timestamp := 0 },
  end_price := none,
  outcome := none,
  resolved := false }

/-- The late-update scenario state: one player, one open daily window with
one unresolved prediction, current price 50000 tokens since time 0. -/
def c1state : State := { baseState with
  players := [(2, mkPlayer 2 0 none)],
  predictions := [((2, .Daily, 0), c1pred)],
  period_prices := [((.Daily, 0), c1window)],
  current_market_price := { price := fromTokens 50000, timestamp := 0 } }

/-- The price update of the late-update scenario: the admin reports
55000 tokens at `t0 + 25h`, one hour after the daily window's end. -/
def c1result : State × Option ContractError :=
  updateMarketPrice c1state 1 (fromTokens 55000) (25 * 60 * 60 * 1000000) 0

/-- A state whose stored price fact carries logical time 10. -/
def c4state : State := { baseState with
  current_market_price := { price := 100, timestamp := 10 } }

/-- A state in which player 2 already has a prediction for the daily
window starting at 0. -/
def c7state : State := { baseState with
  players := [(2, mkPlayer 2 0 none)],
  predictions := [((2, .Daily, 0), c1pred)] }

/-- A state with one poor player (5 attos) and a supply of one full daily
penalty. -/
def c10state : State := { baseState with
  players := [(2, mkPlayer 2 5 none)],
  total_supply := fromTokens 100 }

/-- A resolved daily prediction of player 2 for the window at 0. -/
def c8pred : PlayerPrediction := {
  player_id := 2,
  period := .Daily,
  outcome := .Rise,
  prediction_time := 5,
  period_start := 0,
  resolved := true,
  correct := some true }

/-- A resolved daily window with both snapshots (100 → 120, Rise). -/
def c8window : PeriodPriceData := {
  period_start := 0,
  period_end := dayMicros,
  start_price := some { price := 100, timestamp := 0 },
  end_price := some { price := 120, timestamp := 3 },
  outcome := some .Rise,
  resolved := true }

/-- A state holding one resolved window and one resolved prediction. -/
def c8state : State := { baseState with
  players := [(2, mkPlayer 2 0 none)],
  predictions := [((2, .Daily, 0), c8pred)],
  period_prices := [((.Daily, 0), c8window)] }

/-- Discriminates the one cross-chain message variant that carries no
message identity and is not gated by the idempotency store. -/
def isLeaderboardUpdateMsg : Message → Bool
  | .GlobalLeaderboardUpdate _ _ _ _ => true
  | _ => false

/-- A concrete `GlobalLeaderboardUpdate` message (no message identity). -/
def c5msg : Message := .GlobalLeaderboardUpdate 1 0 0 0

/-- The per-member effect of one award application (balance and
total-earned grow by the unscaled reward, XP grows by the XP tier) in the
case where no level threshold is crossed.  Used to state the cascade
theorems; `awardMembersLoop_spec` proves it against the code. -/
def awardUpd (reward xpR : Nat) (p : Player) : Player :=
  { p with
    token_balance := satAdd p.token_balance reward,
    total_earned := satAdd p.total_earned reward,
    experience_points := p.experience_points + xpR }

/-- The per-member effect of one clamped penalty application: the balance
loses the penalty truncated at zero, total-spent grows by exactly the
deducted amount.  `penaltyMembersLoop_spec` proves this matches the two
branches of the code. -/
def penaltyUpd (penalty : Nat) (p : Player) : Player :=
  { p with
    token_balance := p.token_balance - penalty,
    total_spent := satAdd p.total_spent (min penalty p.token_balance) }

/-- A level-1 member of guild 10 with zero balance. -/
def c2player (pid : Nat) : Player := mkPlayer pid 0 (some 10)

/-- The three-member guild of the cascade scenario. -/
def c2guild : Guild := { name := "g", members := [1, 2, 3] }

/-- The cascade scenario state: players 1, 2, 3 in guild 10, empty
supply. -/
def c2state : State := { baseState with
  players := [(1, c2player 1), (2, c2player 2), (3, c2player 3)],
  guilds := [(10, c2guild)] }

/-- The state after resolving player 1's correct daily prediction: the
individual award followed by the guild cascade, exactly as the correct
branch of `resolve_prediction` runs them. -/
def c2result : State :=
  (awardGuildPredictionReward (awardPredictionReward c2state 1 .Daily 0 0).1
    1 .Daily 0).1

/-- The two-member guild of the insufficient-balance scenario. -/
def c6guild : Guild := { name := "g", members := [1, 2] }

/-- The insufficient-balance scenario: player 1 holds 5 attos (far less
than the daily penalty), player 2 holds 250 tokens; both in guild 10. -/
def c6state : State := { baseState with
  players := [(1, mkPlayer 1 5 (some 10)),
              (2, mkPlayer 2 (fromTokens 250) (some 10))],
  guilds := [(10, c6guild)],
  total_supply := fromTokens 1000 }

/-- The bundle of state fields the reward/penalty cascade never writes:
predictions, period windows, guilds and the current price fact.  Used to
state preservation lemmas compactly. -/
def cascadeAux (s : State) :
    List ((Nat × PredictionPeriod × Nat) × PlayerPrediction) ×
    List ((PredictionPeriod × Nat) × PeriodPriceData) ×
    List (Nat × Guild) × MarketPrice :=
  (s.predictions, s.period_prices, s.guilds, s.current_market_price)

/-- Key consistency of the predictions map: every stored record carries
the player id of its own key.  Every prediction the code itself stores
satisfies this (`predict_*_outcome` and `resolve_prediction` both build
the key from the record's `player_id`). -/
def wfPredKeys (s : State) : Prop :=
  ∀ pk q, lookupA s.predictions pk = some q → q.player_id = pk.1

/-- Well-formedness of a resolved window: both snapshots are present and
the stored outcome is the one derived from them — exactly the shape
`resolve_prediction` writes. -/
def wfResolvedData (pd : PeriodPriceData) : Prop :=
  ∃ ip ep, pd.start_price = some ip ∧ pd.end_price = some ep ∧
    pd.outcome = some (calculateOutcomeFromPrices ip.price ep.price)

/-- `s'` preserves every resolved well-formed window and every resolved
prediction of `s` verbatim. -/
def resolvedPreserved (s s' : State) : Prop :=
  (∀ k pd, lookupA s.period_prices k = some pd → pd.resolved = true →
    wfResolvedData pd → lookupA s'.period_prices k = some pd) ∧
  (∀ pk q, lookupA s.predictions pk = some q → q.resolved = true →
    lookupA s'.predictions pk = some q)

/-! ## Helper lemmas -/

/-- Lookup after inserting at the same key. -/
theorem lookupA_insertA_self {κ α : Type} [DecidableEq κ]
    (l : List (κ × α)) (k : κ) (v : α) :
    lookupA (insertA l k v) k = some v := by
  induction l with
  | nil => simp [insertA, lookupA]
  | cons hd tl ih =>
    by_cases h : hd.1 = k
    · simp [insertA, h, lookupA]
    · simp [insertA, h, lookupA, ih]

/-- Lookup after inserting at a different key. -/
theorem lookupA_insertA_ne {κ α : Type} [DecidableEq κ]
    (l : List (κ × α)) (k k' : κ) (v : α) (h : k' ≠ k) :
    lookupA (insertA l k v) k' = lookupA l k' := by
  induction l with
  | nil =>
    have : ¬ k = k' := fun hh => h hh.symm
    simp [insertA, lookupA, this]
  | cons hd tl ih =>
    by_cases h1 : hd.1 = k
    · simp only [insertA, h1, if_true, lookupA]
      have : ¬ k = k' := fun hh => h hh.symm
      simp [this, h1]
    · simp only [insertA, h1, if_false, lookupA]
      by_cases h2 : hd.1 = k'
      · simp [h2]
      · simp [h2, ih]

/-- Re-inserting the value already stored at a key leaves the list
unchanged. -/
theorem insertA_self {κ α : Type} [DecidableEq κ]
    (l : List (κ × α)) (k : κ) (v : α) (h : lookupA l k = some v) :
    insertA l k v = l := by
  induction l with
  | nil => simp [lookupA] at h
  | cons hd tl ih =>
    by_cases h1 : hd.1 = k
    · simp only [lookupA, h1, if_true, Option.some_inj] at h
      simp only [insertA, h1, if_true]
      rw [← h, ← h1]
    · simp only [lookupA, h1, if_false] at h
      simp [insertA, h1, ih h]

/-- Inserting twice at the same key equals inserting once. -/
theorem insertA_insertA_self {κ α : Type} [DecidableEq κ]
    (l : List (κ × α)) (k : κ) (v : α) :
    insertA (insertA l k v) k v = insertA l k v := by
  exact insertA_self _ _ _ (lookupA_insertA_self l k v)

/-- `levelNeeded` strictly dominates the level, which bounds the climb in
`add_experience`'s level loop. -/
theorem le_levelNeeded (l : Nat) (h : 1 ≤ l) : l + 1 ≤ levelNeeded l := by
  unfold levelNeeded
  rcases Nat.eq_or_lt_of_le h with h1 | h1
  · simp [← h1]
  · have h2 : ¬ l = 1 := by omega
    simp only [h2, if_false]
    have h3 : l - 1 < 4 ^ (l - 1) := Nat.lt_pow_self (by norm_num) _
    have h4 : l ≤ 4 ^ (l - 1) := by omega
    have h5 : 2 * 4 ^ (l - 1) ≤ 1000 * 4 ^ (l - 1) :=
      Nat.mul_le_mul_right _ (by norm_num)
    have h6 : 1 ≤ 4 ^ (l - 1) := Nat.one_le_pow _ _ (by norm_num)
    omega

/-- `levelLoop` satisfies the loop equation of `add_experience`'s
`while` loop. -/
theorem levelLoop_eq (xp l : Nat) :
    levelLoop xp l =
      if 1 ≤ l ∧ levelNeeded l ≤ xp then levelLoop xp (l + 1) else l := by
  unfold levelLoop
  rcases h : xp + 1 - l with _ | n
  · have : ¬ (1 ≤ l ∧ levelNeeded l ≤ xp) := by
      rintro ⟨h1, h2⟩
      have := le_levelNeeded l h1
      omega
    simp [levelClimb, this]
  · show levelClimb xp (n + 1) l = _
    rw [show levelClimb xp (n + 1) l =
      (if 1 ≤ l ∧ levelNeeded l ≤ xp then levelClimb xp n (l + 1) else l)
      from rfl]
    split
    · rename_i hc
      have := le_levelNeeded l hc.1
      have hn : xp + 1 - (l + 1) = n := by omega
      rw [hn]
    · rfl

/-- If the XP total stays below the current level's threshold the loop is
the identity. -/
theorem levelLoop_of_lt (xp l : Nat) (h : xp < levelNeeded l) :
    levelLoop xp l = l := by
  rw [levelLoop_eq]
  have : ¬ (1 ≤ l ∧ levelNeeded l ≤ xp) := by
    rintro ⟨_, h2⟩; omega
  simp [this]

/-- `check_achievements` writes only the players map. -/
theorem cascadeAux_checkAchievements (s : State) (p : Player) :
    cascadeAux (checkAchievements s p).1 = cascadeAux s := by
  unfold checkAchievements
  rcases h : checkAchievementsLoop s [1, 2, 3, 4, 5, 6, 7] p false with ⟨p1, b⟩
  cases b <;> simp [h, cascadeAux]

/-- `check_achievements` does not change the total supply. -/
theorem totalSupply_checkAchievements (s : State) (p : Player) :
    (checkAchievements s p).1.total_supply = s.total_supply := by
  unfold checkAchievements
  rcases h : checkAchievementsLoop s [1, 2, 3, 4, 5, 6, 7] p false with ⟨p1, b⟩
  cases b <;> simp [h]

/-- `add_experience` writes only the players map. -/
theorem cascadeAux_addExperience (s : State) (p : Player) (xp : Nat) :
    cascadeAux (addExperience s p xp).1 = cascadeAux s := by
  simp only [addExperience]
  split
  · exact cascadeAux_checkAchievements _ _
  · rfl

/-- `add_experience` does not change the total supply. -/
theorem totalSupply_addExperience (s : State) (p : Player) (xp : Nat) :
    (addExperience s p xp).1.total_supply = s.total_supply := by
  simp only [addExperience]
  split
  · exact totalSupply_checkAchievements _ _
  · rfl

/-- The leaderboard rebuild writes only the leaderboard. -/
theorem cascadeAux_updateEnhancedLeaderboard (s : State) (t : Nat) :
    cascadeAux (updateEnhancedLeaderboard s t) = cascadeAux s := rfl

/-- The broadcast projection refresh writes only the global players
map. -/
theorem cascadeAux_broadcastGlobalPlayerUpdated (s : State)
    (cid pid a b c t : Nat) :
    cascadeAux (broadcastGlobalPlayerUpdated s cid pid a b c t) =
      cascadeAux s := by
  unfold broadcastGlobalPlayerUpdated
  cases lookupA s.global_players pid <;> rfl

/-- The broadcast projection refresh does not change the players map. -/
theorem players_broadcastGlobalPlayerUpdated (s : State)
    (cid pid a b c t : Nat) :
    (broadcastGlobalPlayerUpdated s cid pid a b c t).players = s.players := by
  unfold broadcastGlobalPlayerUpdated
  cases lookupA s.global_players pid <;> rfl

/-- The broadcast projection refresh does not change the supply. -/
theorem totalSupply_broadcastGlobalPlayerUpdated (s : State)
    (cid pid a b c t : Nat) :
    (broadcastGlobalPlayerUpdated s cid pid a b c t).total_supply =
      s.total_supply := by
  unfold broadcastGlobalPlayerUpdated
  cases lookupA s.global_players pid <;> rfl

/-- The individual award writes only players, supply, leaderboard and the
global projection. -/
theorem cascadeAux_awardPredictionReward (s : State) (pid : Nat)
    (period : PredictionPeriod) (cid t : Nat) :
    cascadeAux (awardPredictionReward s pid period cid t).1 = cascadeAux s := by
  unfold awardPredictionReward
  cases h : lookupA s.players pid with
  | none => rfl
  | some p =>
    simp only []
    rw [cascadeAux_broadcastGlobalPlayerUpdated,
      cascadeAux_updateEnhancedLeaderboard]
    have h1 := cascadeAux_addExperience s
      { p with
        token_balance := satAdd p.token_balance (fromTokens (rewardTier period)),
        total_earned := satAdd p.total_earned (fromTokens (rewardTier period)) }
      (xpTier period)
    simpa [cascadeAux] using h1

/-- The individual penalty writes only players and supply. -/
theorem cascadeAux_penalizePredictionLoss (s : State) (pid : Nat)
    (period : PredictionPeriod) :
    cascadeAux (penalizePredictionLoss s pid period).1 = cascadeAux s := by
  unfold penalizePredictionLoss
  cases h : lookupA s.players pid with
  | none => rfl
  | some p => simp [cascadeAux]

/-- The guild award member loop writes only the players map. -/
theorem cascadeAux_awardMembersLoop (reward xpR : Nat) (ms : List Nat)
    (s : State) :
    cascadeAux (awardMembersLoop reward xpR s ms).1 = cascadeAux s := by
  induction ms generalizing s with
  | nil => rfl
  | cons m rest ih =>
    unfold awardMembersLoop
    cases h : lookupA s.players m with
    | none => rfl
    | some p =>
      simp only []
      rw [ih]
      have h1 := cascadeAux_addExperience s
        { p with
          token_balance := satAdd p.token_balance reward,
          total_earned := satAdd p.total_earned reward } xpR
      simpa [cascadeAux] using h1

/-- The guild award member loop does not change the supply. -/
theorem totalSupply_awardMembersLoop (reward xpR : Nat) (ms : List Nat)
    (s : State) :
    (awardMembersLoop reward xpR s ms).1.total_supply = s.total_supply := by
  induction ms generalizing s with
  | nil => rfl
  | cons m rest ih =>
    unfold awardMembersLoop
    cases h : lookupA s.players m with
    | none => rfl
    | some p =>
      simp only []
      rw [ih]
      exact totalSupply_addExperience s _ xpR

/-- The guild penalty member loop writes only the players map. -/
theorem cascadeAux_penaltyMembersLoop (penalty : Nat) (ms : List Nat)
    (s : State) :
    cascadeAux (penaltyMembersLoop penalty s ms).1 = cascadeAux s := by
  induction ms generalizing s with
  | nil => rfl
  | cons m rest ih =>
    unfold penaltyMembersLoop
    cases h : lookupA s.players m with
    | none => rfl
    | some p =>
      simp only []
      rw [ih]
      rfl

/-- The guild penalty member loop does not change the supply. -/
theorem totalSupply_penaltyMembersLoop (penalty : Nat) (ms : List Nat)
    (s : State) :
    (penaltyMembersLoop penalty s ms).1.total_supply = s.total_supply := by
  induction ms generalizing s with
  | nil => rfl
  | cons m rest ih =>
    unfold penaltyMembersLoop
    cases h : lookupA s.players m with
    | none => rfl
    | some p =>
      simp only []
      rw [ih]

/-- The guild award writes only players, supply, leaderboard and the
global projection. -/
theorem cascadeAux_awardGuildPredictionReward (s : State) (pid : Nat)
    (period : PredictionPeriod) (t : Nat) :
    cascadeAux (awardGuildPredictionReward s pid period t).1 = cascadeAux s := by
  unfold awardGuildPredictionReward
  cases h : lookupA s.players pid with
  | none => rfl
  | some p =>
    simp only []
    cases p.guild_id with
    | none => rfl
    | some gid =>
      simp only []
      cases hg : lookupA s.guilds gid with
      | none => rfl
      | some guild =>
        simp only []
        rcases hl : awardMembersLoop (fromTokens (rewardTier period))
          (guildXpTier period) s guild.members with ⟨s1, e⟩
        have := cascadeAux_awardMembersLoop (fromTokens (rewardTier period))
          (guildXpTier period) guild.members s
        rw [hl] at this
        cases e with
        | none =>
          simp only []
          rw [cascadeAux_updateEnhancedLeaderboard]
          simpa [cascadeAux] using this
        | some err => simpa using this

/-- The guild penalty writes only players and supply. -/
theorem cascadeAux_penalizeGuildPredictionLoss (s : State) (pid : Nat)
    (period : PredictionPeriod) :
    cascadeAux (penalizeGuildPredictionLoss s pid period).1 = cascadeAux s := by
  unfold penalizeGuildPredictionLoss
  cases h : lookupA s.players pid with
  | none => rfl
  | some p =>
    simp only []
    cases p.guild_id with
    | none => rfl
    | some gid =>
      simp only []
      cases hg : lookupA s.guilds gid with
      | none => rfl
      | some guild =>
        simp only []
        rcases hl : penaltyMembersLoop (fromTokens (rewardTier period)) s
          guild.members with ⟨s1, e⟩
        have := cascadeAux_penaltyMembersLoop (fromTokens (rewardTier period))
          guild.members s
        rw [hl] at this
        cases e with
        | none => simpa [cascadeAux] using this
        | some err => simpa using this

/-- When the added XP keeps the total below the current level's
threshold, `add_experience` only increments the XP counter. -/
theorem addExperience_no_levelup (s : State) (p : Player) (xp : Nat)
    (h : p.experience_points + xp < levelNeeded p.level) :
    addExperience s p xp =
      (s, { p with experience_points := p.experience_points + xp }) := by
  simp only [addExperience]
  rw [levelLoop_of_lt _ _ h]
  simp

/-- One member step of the award cascade: balance/earned update followed
by `add_experience` without a level-up is exactly `awardUpd`. -/
theorem addExperience_award_step (s : State) (p : Player) (reward xpR : Nat)
    (hnl : p.experience_points + xpR < levelNeeded p.level) :
    addExperience s
      { p with
        token_balance := satAdd p.token_balance reward,
        total_earned := satAdd p.total_earned reward } xpR =
      (s, awardUpd reward xpR p) := by
  rw [addExperience_no_levelup]
  · rfl
  · simpa using hnl

/-- The two clamping branches of the penalty code equal `penaltyUpd`. -/
theorem penalty_branch_eq (penalty : Nat) (p : Player) :
    (if penalty ≤ p.token_balance then
      { p with
        token_balance := satSub p.token_balance penalty,
        total_spent := satAdd p.total_spent penalty }
    else
      { p with
        token_balance := 0,
        total_spent := satAdd p.total_spent p.token_balance }) =
    penaltyUpd penalty p := by
  by_cases hb : penalty ≤ p.token_balance
  · simp [hb, penaltyUpd, satSub, Nat.min_eq_left hb]
  · have hb' : p.token_balance ≤ penalty := by omega
    simp [hb, penaltyUpd, satSub, Nat.min_eq_right hb',
      Nat.sub_eq_zero_of_le hb']

/-- The guild award loop, when every member exists and none crosses a
level threshold: it succeeds and applies `awardUpd` to exactly the listed
members (each once, the member list being duplicate-free). -/
theorem awardMembersLoop_spec (reward xpR : Nat) (ms : List Nat) (s : State)
    (hnd : ms.Nodup)
    (hpres : ∀ m ∈ ms, ∃ p, lookupA s.players m = some p ∧
      p.experience_points + xpR < levelNeeded p.level) :
    (awardMembersLoop reward xpR s ms).2 = none ∧
    ∀ q : Nat, lookupA (awardMembersLoop reward xpR s ms).1.players q =
      if q ∈ ms then (lookupA s.players q).map (awardUpd reward xpR)
      else lookupA s.players q := by
  induction ms generalizing s with
  | nil => exact ⟨rfl, fun q => by simp [awardMembersLoop]⟩
  | cons m rest ih =>
    obtain ⟨p, hp, hnl⟩ := hpres m (List.mem_cons_self m rest)
    obtain ⟨hmr, hndr⟩ := List.nodup_cons.mp hnd
    have hstep := addExperience_award_step s p reward xpR hnl
    have hunf : awardMembersLoop reward xpR s (m :: rest) =
        awardMembersLoop reward xpR
          { s with players := insertA s.players m (awardUpd reward xpR p) }
          rest := by
      conv_lhs => unfold awardMembersLoop
      rw [hp]
      simp only [hstep]
    have h2 : ∀ m' ∈ rest, ∃ p', lookupA
        ({ s with players := insertA s.players m (awardUpd reward xpR p)
         } : State).players m' = some p' ∧
        p'.experience_points + xpR < levelNeeded p'.level := by
      intro m' hm'
      have hne : m' ≠ m := by
        rintro rfl; exact hmr hm'
      obtain ⟨p', hp', hnl'⟩ := hpres m' (List.mem_cons_of_mem m hm')
      refine ⟨p', ?_, hnl'⟩
      simpa [lookupA_insertA_ne _ _ _ _ hne] using hp'
    obtain ⟨he, hq⟩ := ih _ hndr h2
    rw [hunf]
    refine ⟨he, fun q => ?_⟩
    rw [hq q]
    by_cases hqm : q = m
    · subst hqm
      have hnr : q ∉ rest := hmr
      simp [hnr, lookupA_insertA_self, hp, awardUpd]
    · have hlq : lookupA (insertA s.players m (awardUpd reward xpR p)) q =
        lookupA s.players q := lookupA_insertA_ne _ _ _ _ hqm
      by_cases hqr : q ∈ rest
      · simp [hqr, hlq, hqm]
      · have hnc : q ∉ m :: rest := by simp [hqm, hqr]
        simp [hqr, hlq, hnc]

/-- The guild penalty loop, when every member exists: it succeeds and
applies the clamped `penaltyUpd` to exactly the listed members. -/
theorem penaltyMembersLoop_spec (penalty : Nat) (ms : List Nat) (s : State)
    (hnd : ms.Nodup)
    (hpres : ∀ m ∈ ms, ∃ p, lookupA s.players m = some p) :
    (penaltyMembersLoop penalty s ms).2 = none ∧
    ∀ q : Nat, lookupA (penaltyMembersLoop penalty s ms).1.players q =
      if q ∈ ms then (lookupA s.players q).map (penaltyUpd penalty)
      else lookupA s.players q := by
  induction ms generalizing s with
  | nil => exact ⟨rfl, fun q => by simp [penaltyMembersLoop]⟩
  | cons m rest ih =>
    obtain ⟨p, hp⟩ := hpres m (List.mem_cons_self m rest)
    obtain ⟨hmr, hndr⟩ := List.nodup_cons.mp hnd
    have hunf : penaltyMembersLoop penalty s (m :: rest) =
        penaltyMembersLoop penalty
          { s with players := insertA s.players m (penaltyUpd penalty p) }
          rest := by
      conv_lhs => unfold penaltyMembersLoop
      rw [hp]
      simp only [penalty_branch_eq]
    have h2 : ∀ m' ∈ rest, ∃ p', lookupA
        ({ s with players := insertA s.players m (penaltyUpd penalty p)
         } : State).players m' = some p' := by
      intro m' hm'
      have hne : m' ≠ m := by
        rintro rfl; exact hmr hm'
      obtain ⟨p', hp'⟩ := hpres m' (List.mem_cons_of_mem m hm')
      exact ⟨p', by simpa [lookupA_insertA_ne _ _ _ _ hne] using hp'⟩
    obtain ⟨he, hq⟩ := ih _ hndr h2
    rw [hunf]
    refine ⟨he, fun q => ?_⟩
    rw [hq q]
    by_cases hqm : q = m
    · subst hqm
      have hnr : q ∉ rest := hmr
      simp [hnr, lookupA_insertA_self, hp]
    · have hlq : lookupA (insertA s.players m (penaltyUpd penalty p)) q =
        lookupA s.players q := lookupA_insertA_ne _ _ _ _ hqm
      by_cases hqr : q ∈ rest
      · simp [hqr, hlq, hqm]
      · have hnc : q ∉ m :: rest := by simp [hqm, hqr]
        simp [hqr, hlq, hnc]

/-- The broadcast projection refresh does not change the guilds map. -/
theorem guilds_broadcastGlobalPlayerUpdated (s : State)
    (cid pid a b c t : Nat) :
    (broadcastGlobalPlayerUpdated s cid pid a b c t).guilds = s.guilds := by
  unfold broadcastGlobalPlayerUpdated
  cases lookupA s.global_players pid <;> rfl

/-- `award_prediction_reward` without a level-up: success, the player gets
`awardUpd` with the individual XP tier, and the tier reward is minted into
the supply; guilds are untouched. -/
theorem awardPredictionReward_spec (s : State) (pid : Nat)
    (period : PredictionPeriod) (cid t : Nat) (p : Player)
    (hp : lookupA s.players pid = some p)
    (hnl : p.experience_points + xpTier period < levelNeeded p.level) :
    (awardPredictionReward s pid period cid t).2 = none ∧
    (awardPredictionReward s pid period cid t).1.players =
      insertA s.players pid
        (awardUpd (fromTokens (rewardTier period)) (xpTier period) p) ∧
    (awardPredictionReward s pid period cid t).1.total_supply =
      satAdd s.total_supply (fromTokens (rewardTier period)) ∧
    (awardPredictionReward s pid period cid t).1.guilds = s.guilds := by
  have hstep := addExperience_award_step s p (fromTokens (rewardTier period))
    (xpTier period) hnl
  unfold awardPredictionReward
  rw [hp]
  simp only [hstep, players_broadcastGlobalPlayerUpdated,
    totalSupply_broadcastGlobalPlayerUpdated,
    guilds_broadcastGlobalPlayerUpdated, updateEnhancedLeaderboard]
  simp

/-- `penalize_prediction_loss`: success, the player gets the clamped
`penaltyUpd`, and `min(penalty, supply)` is burned; guilds untouched. -/
theorem penalizePredictionLoss_spec (s : State) (pid : Nat)
    (period : PredictionPeriod) (p : Player)
    (hp : lookupA s.players pid = some p) :
    (penalizePredictionLoss s pid period).2 = none ∧
    (penalizePredictionLoss s pid period).1.players =
      insertA s.players pid (penaltyUpd (fromTokens (rewardTier period)) p) ∧
    (penalizePredictionLoss s pid period).1.total_supply =
      s.total_supply - min (fromTokens (rewardTier period)) s.total_supply ∧
    (penalizePredictionLoss s pid period).1.guilds = s.guilds := by
  unfold penalizePredictionLoss
  rw [hp]
  simp only [penalty_branch_eq]
  simp [satSub]

/-- `award_guild_prediction_reward` when every member exists and none
crosses a level threshold: success, every member gets the full (unscaled)
tier reward once via `awardUpd`, and the supply grows by
`from_tokens(reward_attos * member_count)` — the token scaling applied a
second time to an already atto-denominated amount. -/
theorem awardGuildPredictionReward_spec (s : State) (pid gid : Nat)
    (period : PredictionPeriod) (t : Nat) (p : Player) (guild : Guild)
    (hp : lookupA s.players pid = some p)
    (hg : p.guild_id = some gid)
    (hguild : lookupA s.guilds gid = some guild)
    (hnd : guild.members.Nodup)
    (hpres : ∀ m ∈ guild.members, ∃ q, lookupA s.players m = some q ∧
      q.experience_points + guildXpTier period < levelNeeded q.level) :
    (awardGuildPredictionReward s pid period t).2 = none ∧
    (∀ q : Nat,
      lookupA (awardGuildPredictionReward s pid period t).1.players q =
        if q ∈ guild.members then
          (lookupA s.players q).map
            (awardUpd (fromTokens (rewardTier period)) (guildXpTier period))
        else lookupA s.players q) ∧
    (awardGuildPredictionReward s pid period t).1.total_supply =
      satAdd s.total_supply
        (fromTokens (satMul (fromTokens (rewardTier period))
          guild.members.length)) := by
  obtain ⟨he, hq⟩ := awardMembersLoop_spec (fromTokens (rewardTier period))
    (guildXpTier period) guild.members s hnd hpres
  have hsup := totalSupply_awardMembersLoop (fromTokens (rewardTier period))
    (guildXpTier period) guild.members s
  unfold awardGuildPredictionReward
  rw [hp]
  simp only [hg, hguild]
  rcases hl : awardMembersLoop (fromTokens (rewardTier period))
    (guildXpTier period) s guild.members with ⟨s1, e⟩
  rw [hl] at he hq hsup
  subst he
  simp only [updateEnhancedLeaderboard]
  dsimp only at hsup hq
  refine ⟨by trivial, fun q => ?_, by simp [hsup]⟩
  exact hq q

/-- `penalize_guild_prediction_loss` when every member exists: success,
every member loses the clamped tier penalty once via `penaltyUpd`, and
`min(from_tokens(penalty_attos * member_count), supply)` is burned. -/
theorem penalizeGuildPredictionLoss_spec (s : State) (pid gid : Nat)
    (period : PredictionPeriod) (p : Player) (guild : Guild)
    (hp : lookupA s.players pid = some p)
    (hg : p.guild_id = some gid)
    (hguild : lookupA s.guilds gid = some guild)
    (hnd : guild.members.Nodup)
    (hpres : ∀ m ∈ guild.members, ∃ q, lookupA s.players m = some q) :
    (penalizeGuildPredictionLoss s pid period).2 = none ∧
    (∀ q : Nat,
      lookupA (penalizeGuildPredictionLoss s pid period).1.players q =
        if q ∈ guild.members then
          (lookupA s.players q).map
            (penaltyUpd (fromTokens (rewardTier period)))
        else lookupA s.players q) ∧
    (penalizeGuildPredictionLoss s pid period).1.total_supply =
      s.total_supply - min
        (fromTokens (satMul (fromTokens (rewardTier period))
          guild.members.length)) s.total_supply := by
  obtain ⟨he, hq⟩ := penaltyMembersLoop_spec (fromTokens (rewardTier period))
    guild.members s hnd hpres
  have hsup := totalSupply_penaltyMembersLoop (fromTokens (rewardTier period))
    guild.members s
  unfold penalizeGuildPredictionLoss
  rw [hp]
  simp only [hg, hguild]
  rcases hl : penaltyMembersLoop (fromTokens (rewardTier period)) s
    guild.members with ⟨s1, e⟩
  rw [hl] at he hq hsup
  subst he
  dsimp only at hsup hq
  refine ⟨by trivial, fun q => ?_, by simp [hsup, satSub]⟩
  exact hq q

/-- Preservation is reflexive. -/
theorem resolvedPreserved_refl (s : State) : resolvedPreserved s s :=
  ⟨fun _ _ h _ _ => h, fun _ _ h _ => h⟩

/-- Preservation composes. -/
theorem resolvedPreserved_trans {s1 s2 s3 : State}
    (h12 : resolvedPreserved s1 s2) (h23 : resolvedPreserved s2 s3) :
    resolvedPreserved s1 s3 :=
  ⟨fun k pd h hres hwf => h23.1 k pd (h12.1 k pd h hres hwf) hres hwf,
   fun pk q h hres => h23.2 pk q (h12.2 pk q h hres) hres⟩

/-- A state with the same two maps preserves everything. -/
theorem resolvedPreserved_of_eq {s s' : State}
    (hpp : s'.period_prices = s.period_prices)
    (hpr : s'.predictions = s.predictions) : resolvedPreserved s s' :=
  ⟨fun k pd h _ _ => by rw [hpp]; exact h,
   fun pk q h _ => by rw [hpr]; exact h⟩

/-- The reward/penalty dispatch never writes predictions, windows, guilds
or the price fact. -/
theorem cascadeAux_resolveCascade (s : State) (pid : Nat)
    (period : PredictionPeriod) (cid t : Nat) (c : Bool) :
    cascadeAux (resolveCascade s pid period cid t c).1 = cascadeAux s := by
  unfold resolveCascade
  split
  · rcases ha : awardPredictionReward s pid period cid t with ⟨s3, e⟩
    have h1 := cascadeAux_awardPredictionReward s pid period cid t
    rw [ha] at h1
    dsimp only at h1
    cases e with
    | none =>
      dsimp only
      rw [cascadeAux_awardGuildPredictionReward]
      exact h1
    | some err => exact h1
  · rcases ha : penalizePredictionLoss s pid period with ⟨s3, e⟩
    have h1 := cascadeAux_penalizePredictionLoss s pid period
    rw [ha] at h1
    dsimp only at h1
    cases e with
    | none =>
      dsimp only
      rw [cascadeAux_penalizeGuildPredictionLoss]
      exact h1
    | some err => exact h1

/-- The dispatch leaves the predictions map unchanged. -/
theorem predictions_resolveCascade (s : State) (pid : Nat)
    (period : PredictionPeriod) (cid t : Nat) (c : Bool) :
    (resolveCascade s pid period cid t c).1.predictions = s.predictions :=
  congrArg Prod.fst (cascadeAux_resolveCascade s pid period cid t c)

/-- The dispatch leaves the windows map unchanged. -/
theorem period_prices_resolveCascade (s : State) (pid : Nat)
    (period : PredictionPeriod) (cid t : Nat) (c : Bool) :
    (resolveCascade s pid period cid t c).1.period_prices = s.period_prices :=
  congrArg (fun x => x.2.1) (cascadeAux_resolveCascade s pid period cid t c)

/-- `resolve_prediction` preserves every resolved well-formed window and
every resolved prediction, and maintains key consistency, provided the
prediction it resolves was read at its own key. -/
theorem resolvePrediction_resolvedPreserved (s : State)
    (pred : PlayerPrediction) (period : PredictionPeriod)
    (periodStart cid t : Nat)
    (hwf : wfPredKeys s)
    (hpredk : lookupA s.predictions (pred.player_id, period, periodStart) =
      some pred) :
    resolvedPreserved s (resolvePrediction s pred period periodStart cid
      t).1 ∧
    wfPredKeys (resolvePrediction s pred period periodStart cid t).1 := by
  by_cases hres : pred.resolved = true
  · unfold resolvePrediction
    rw [if_pos hres]
    exact ⟨resolvedPreserved_refl s, hwf⟩
  · unfold resolvePrediction
    rw [if_neg hres]
    cases hpd : lookupA s.period_prices (period, periodStart) with
    | none => exact ⟨resolvedPreserved_refl s, hwf⟩
    | some pdc =>
      dsimp only
      cases hsp : pdc.start_price with
      | none =>
        try dsimp only
        exact ⟨resolvedPreserved_refl s, hwf⟩
      | some ip =>
        try dsimp only
        cases hep : pdc.end_price with
        | none =>
          try dsimp only
          exact ⟨resolvedPreserved_refl s, hwf⟩
        | some ep =>
          try dsimp only
          constructor
          · constructor
            · intro k pd h hkres hkwf
              rw [period_prices_resolveCascade]
              dsimp only
              by_cases hkc : k = (period, periodStart)
              · subst hkc
                rw [hpd] at h
                cases h
                obtain ⟨ip0, ep0, hip0, hep0, hout0⟩ := hkwf
                rw [hsp] at hip0
                cases hip0
                rw [hep] at hep0
                cases hep0
                have hpd1 : ({
                    period_start := pdc.period_start,
                    period_end := pdc.period_end,
                    start_price := some ip,
                    end_price := some ep,
                    outcome := some (calculateOutcomeFromPrices ip.price
                      ep.price),
                    resolved := true } : PeriodPriceData) = pdc := by
                  cases pdc
                  simp_all
                rw [hpd1, insertA_self _ _ _ hpd]
                exact hpd
              · rw [lookupA_insertA_ne _ _ _ _ hkc]
                exact h
            · intro pk q h hqres
              rw [predictions_resolveCascade]
              dsimp only
              by_cases hpkc : pk = (pred.player_id, period, periodStart)
              · subst hpkc
                rw [hpredk] at h
                cases h
                exact absurd hqres hres
              · rw [lookupA_insertA_ne _ _ _ _ hpkc]
                exact h
          · intro pk' q' h
            rw [predictions_resolveCascade] at h
            dsimp only at h
            by_cases hpkc : pk' = (pred.player_id, period, periodStart)
            · subst hpkc
              rw [lookupA_insertA_self] at h
              cases h
              rfl
            · rw [lookupA_insertA_ne _ _ _ _ hpkc] at h
              exact hwf pk' q' h

/-- Every key collected by the expiry sweep's filter carries the swept
period kind and window start. -/
theorem mem_resolveKeys
    (l : List ((Nat × PredictionPeriod × Nat) × PlayerPrediction))
    (period : PredictionPeriod) (pstart : Nat) :
    ∀ kk ∈ (l.filter (fun kv => kv.1.2.1 = period ∧ kv.1.2.2 = pstart ∧
      !kv.2.resolved)).map (·.1),
      kk.2.1 = period ∧ kk.2.2 = pstart := by
  intro kk hkk
  simp only [List.mem_map] at hkk
  obtain ⟨kv, hkv, rfl⟩ := hkk
  rw [List.mem_filter] at hkv
  have h2 := hkv.2
  simp only [decide_eq_true_eq, Bool.and_eq_true] at h2
  exact ⟨h2.1, h2.2.1⟩

/-- The per-key resolution loop preserves resolved windows/predictions
and key consistency, provided every key in the list carries the loop's
period and start. -/
theorem resolveKeysLoop_resolvedPreserved (period : PredictionPeriod)
    (periodStart cid t : Nat) :
    ∀ keys : List (Nat × PredictionPeriod × Nat),
    (∀ kk ∈ keys, kk.2.1 = period ∧ kk.2.2 = periodStart) →
    ∀ s : State, wfPredKeys s →
    resolvedPreserved s (resolveKeysLoop period periodStart cid t s keys) ∧
    wfPredKeys (resolveKeysLoop period periodStart cid t s keys) := by
  intro keys
  induction keys with
  | nil => exact fun _ s hwf => ⟨resolvedPreserved_refl s, hwf⟩
  | cons kk rest ih =>
    intro hkeys s hwf
    obtain ⟨hk1, hk2⟩ := hkeys kk (List.mem_cons_self kk rest)
    have hkeys' : ∀ kk' ∈ rest, kk'.2.1 = period ∧ kk'.2.2 = periodStart :=
      fun kk' h => hkeys kk' (List.mem_cons_of_mem kk h)
    cases hpk : lookupA s.predictions kk with
    | none =>
      have hstep : resolveKeysLoop period periodStart cid t s (kk :: rest) =
          resolveKeysLoop period periodStart cid t s rest := by
        conv_lhs => unfold resolveKeysLoop
        rw [hpk]
      rw [hstep]
      exact ih hkeys' s hwf
    | some pred =>
      by_cases hres : pred.resolved = true
      · have hstep : resolveKeysLoop period periodStart cid t s (kk :: rest) =
            resolveKeysLoop period periodStart cid t s rest := by
          conv_lhs => unfold resolveKeysLoop
          rw [hpk]
          simp [hres]
        rw [hstep]
        exact ih hkeys' s hwf
      · have hres' : pred.resolved = false := by
          revert hres; cases pred.resolved <;> simp
        have hstep : resolveKeysLoop period periodStart cid t s (kk :: rest) =
            resolveKeysLoop period periodStart cid t
              (resolvePrediction s pred period periodStart cid t).1 rest := by
          conv_lhs => unfold resolveKeysLoop
          rw [hpk]
          simp [hres']
        have hplayer : pred.player_id = kk.1 := hwf kk pred hpk
        have hkk : kk = (pred.player_id, period, periodStart) := by
          obtain ⟨a, b, c⟩ := kk
          dsimp only at hk1 hk2 hplayer
          subst hk1
          subst hk2
          rw [hplayer]
        have hpredk : lookupA s.predictions
            (pred.player_id, period, periodStart) = some pred := by
          rw [← hkk]; exact hpk
        obtain ⟨hp1, hw1⟩ := resolvePrediction_resolvedPreserved s pred period
          periodStart cid t hwf hpredk
        obtain ⟨hp2, hw2⟩ := ih hkeys' _ hw1
        rw [hstep]
        exact ⟨resolvedPreserved_trans hp1 hp2, hw2⟩

/-- Running the per-key loop from a state that differs from `s` only in
its windows map, when that map still holds every resolved well-formed
window of `s`, preserves `s`'s resolved data. -/
theorem fillState_resolvedPreserved (period : PredictionPeriod)
    (pstart cid t : Nat) (s : State)
    (pp' : List ((PredictionPeriod × Nat) × PeriodPriceData))
    (hwf : wfPredKeys s)
    (hpp : ∀ k pd, lookupA s.period_prices k = some pd → pd.resolved = true →
      wfResolvedData pd → lookupA pp' k = some pd)
    (keys : List (Nat × PredictionPeriod × Nat))
    (hkeys : ∀ kk ∈ keys, kk.2.1 = period ∧ kk.2.2 = pstart) :
    resolvedPreserved s (resolveKeysLoop period pstart cid t
      { s with period_prices := pp' } keys) ∧
    wfPredKeys (resolveKeysLoop period pstart cid t
      { s with period_prices := pp' } keys) := by
  obtain ⟨hlp, hlw⟩ := resolveKeysLoop_resolvedPreserved period pstart cid t
    keys hkeys { s with period_prices := pp' } (fun pk q h => hwf pk q h)
  have hfill : resolvedPreserved s { s with period_prices := pp' } :=
    ⟨fun k pd h hres hwfd => hpp k pd h hres hwfd, fun pk q h _ => h⟩
  exact ⟨resolvedPreserved_trans hfill hlp, hlw⟩

/-- One period of the expiry sweep preserves resolved well-formed windows
and resolved predictions, and maintains key consistency. -/
theorem resolveExpiredStep_resolvedPreserved (ct chainId : Nat) (s : State)
    (period : PredictionPeriod) (hwf : wfPredKeys s) :
    resolvedPreserved s (resolveExpiredStep ct chainId s period) ∧
    wfPredKeys (resolveExpiredStep ct chainId s period) := by
  unfold resolveExpiredStep
  dsimp only
  cases hpd : lookupA s.period_prices (period, periodStartOf period ct) with
  | none => exact ⟨resolvedPreserved_refl s, hwf⟩
  | some pdc =>
    dsimp only
    by_cases hend : pdc.period_end ≤ ct
    · rw [if_pos hend]
      by_cases hc1 : pdc.start_price.isNone = true
      · rw [if_pos hc1]
        dsimp only
        by_cases hc2 : pdc.end_price.isNone = true
        · rw [if_pos hc2]
          dsimp only
          refine fillState_resolvedPreserved period (periodStartOf period ct)
            chainId ct s _ hwf ?_ _ (mem_resolveKeys _ _ _)
          intro k pd h hres hwfd
          by_cases hkc : k = (period, periodStartOf period ct)
          · subst hkc
            rw [hpd] at h
            cases h
            obtain ⟨ip, ep, hip, hep, _⟩ := hwfd
            rw [hip] at hc1
            simp at hc1
          · rw [lookupA_insertA_ne _ _ _ _ hkc,
              lookupA_insertA_ne _ _ _ _ hkc]
            exact h
        · rw [if_neg hc2]
          dsimp only
          refine fillState_resolvedPreserved period (periodStartOf period ct)
            chainId ct s _ hwf ?_ _ (mem_resolveKeys _ _ _)
          intro k pd h hres hwfd
          by_cases hkc : k = (period, periodStartOf period ct)
          · subst hkc
            rw [hpd] at h
            cases h
            obtain ⟨ip, ep, hip, hep, _⟩ := hwfd
            rw [hip] at hc1
            simp at hc1
          · rw [lookupA_insertA_ne _ _ _ _ hkc]
            exact h
      · rw [if_neg hc1]
        dsimp only
        by_cases hc2 : pdc.end_price.isNone = true
        · rw [if_pos hc2]
          dsimp only
          refine fillState_resolvedPreserved period (periodStartOf period ct)
            chainId ct s _ hwf ?_ _ (mem_resolveKeys _ _ _)
          intro k pd h hres hwfd
          by_cases hkc : k = (period, periodStartOf period ct)
          · subst hkc
            rw [hpd] at h
            cases h
            obtain ⟨ip, ep, hip, hep, _⟩ := hwfd
            rw [hep] at hc2
            simp at hc2
          · rw [lookupA_insertA_ne _ _ _ _ hkc]
            exact h
        · rw [if_neg hc2]
          dsimp only
          exact resolveKeysLoop_resolvedPreserved period
            (periodStartOf period ct) chainId ct _ (mem_resolveKeys _ _ _) s
            hwf
    · rw [if_neg hend]
      exact ⟨resolvedPreserved_refl s, hwf⟩

/-- The whole expiry sweep (all three period kinds) preserves resolved
well-formed windows and resolved predictions. -/
theorem resolveExpiredPredictions_resolvedPreserved (s : State)
    (ct chainId : Nat) (hwf : wfPredKeys s) :
    resolvedPreserved s (resolveExpiredPredictions s ct chainId) ∧
    wfPredKeys (resolveExpiredPredictions s ct chainId) := by
  obtain ⟨h1, w1⟩ := resolveExpiredStep_resolvedPreserved ct chainId s
    .Daily hwf
  obtain ⟨h2, w2⟩ := resolveExpiredStep_resolvedPreserved ct chainId _
    .Weekly w1
  obtain ⟨h3, w3⟩ := resolveExpiredStep_resolvedPreserved ct chainId _
    .Monthly w2
  exact ⟨resolvedPreserved_trans (resolvedPreserved_trans h1 h2) h3, w3⟩

/-- `update_market_price` preserves resolved well-formed windows and
resolved predictions (it changes the price fact and runs the sweep). -/
theorem updateMarketPrice_resolvedPreserved (s : State)
    (caller price ct chainId : Nat) (hwf : wfPredKeys s) :
    resolvedPreserved s (updateMarketPrice s caller price ct chainId).1 ∧
    wfPredKeys (updateMarketPrice s caller price ct chainId).1 := by
  unfold updateMarketPrice
  cases hadm : s.config.admin with
  | none => exact ⟨resolvedPreserved_refl s, hwf⟩
  | some admin =>
    dsimp only
    by_cases hc : caller ≠ admin
    · rw [if_pos hc]
      exact ⟨resolvedPreserved_refl s, hwf⟩
    · rw [if_neg hc]
      dsimp only
      obtain ⟨hp, hw⟩ := resolveExpiredPredictions_resolvedPreserved
        { s with current_market_price := { price := price, timestamp := ct } }
        ct chainId (fun pk q h => hwf pk q h)
      exact ⟨resolvedPreserved_trans (resolvedPreserved_of_eq rfl rfl) hp, hw⟩

/-- Prediction submission preserves resolved windows and predictions: a
duplicate is rejected, and fresh window/prediction records are only ever
inserted at absent keys. -/
theorem predictOutcomeCore_resolvedPreserved (s : State) (pid : Nat)
    (o : PriceOutcome) (ct : Nat) (period : PredictionPeriod)
    (hwf : wfPredKeys s) :
    resolvedPreserved s (predictOutcomeCore s pid o ct period).1 ∧
    wfPredKeys (predictOutcomeCore s pid o ct period).1 := by
  unfold predictOutcomeCore
  cases hp : lookupA s.players pid with
  | none => exact ⟨resolvedPreserved_refl s, hwf⟩
  | some p =>
    dsimp only
    by_cases hc : containsA s.predictions (pid, period, periodStartOf period
      ct) = true
    · rw [if_pos hc]
      exact ⟨resolvedPreserved_refl s, hwf⟩
    · rw [if_neg hc]
      have hnone : lookupA s.predictions (pid, period, periodStartOf period
          ct) = none := by
        revert hc
        unfold containsA
        cases lookupA s.predictions (pid, period, periodStartOf period ct) <;>
          simp
      have hpr : ∀ pk q, lookupA s.predictions pk = some q →
          lookupA (insertA s.predictions (pid, period, periodStartOf period ct)
            { player_id := pid, period := period, outcome := o,
              prediction_time := ct, period_start := periodStartOf period ct,
              resolved := false, correct := none }) pk = some q := by
        intro pk q h
        have hne : pk ≠ (pid, period, periodStartOf period ct) := by
          rintro rfl
          rw [h] at hnone
          cases hnone
        rw [lookupA_insertA_ne _ _ _ _ hne]
        exact h
      have hwf1 : ∀ pk q, lookupA (insertA s.predictions
          (pid, period, periodStartOf period ct)
          { player_id := pid, period := period, outcome := o,
            prediction_time := ct, period_start := periodStartOf period ct,
            resolved := false, correct := none }) pk = some q →
          q.player_id = pk.1 := by
        intro pk q h
        by_cases hne : pk = (pid, period, periodStartOf period ct)
        · subst hne
          rw [lookupA_insertA_self] at h
          cases h
          rfl
        · rw [lookupA_insertA_ne _ _ _ _ hne] at h
          exact hwf pk q h
      by_cases hc2 : containsA s.period_prices
        (period, periodStartOf period ct) = true
      · rw [if_pos hc2]
        exact ⟨⟨fun k pd h _ _ => h, fun pk q h _ => hpr pk q h⟩, hwf1⟩
      · rw [if_neg hc2]
        have hnone2 : lookupA s.period_prices (period, periodStartOf period
            ct) = none := by
          revert hc2
          unfold containsA
          cases lookupA s.period_prices (period, periodStartOf period ct) <;>
            simp
        refine ⟨⟨fun k pd h _ _ => ?_, fun pk q h _ => hpr pk q h⟩, hwf1⟩
        have hne : k ≠ (period, periodStartOf period ct) := by
          rintro rfl
          rw [h] at hnone2
          cases hnone2
        show lookupA (insertA _ _ _) k = some pd
        rw [lookupA_insertA_ne _ _ _ _ hne]
        exact h

/-! ## Claim theorems -/

/-- C9: `calculate_outcome_from_prices` returns Rise exactly when the end
price exceeds the start price, Fall exactly when it is below it, and
Neutral exactly when they are equal; in particular start 100 / end 120
gives Rise, start 100 / end 80 gives Fall, start 100 / end 100 gives
Neutral. -/
theorem c9_outcome_derivation :
    (∀ a b : Nat,
      (calculateOutcomeFromPrices a b = PriceOutcome.Rise ↔ a < b) ∧
      (calculateOutcomeFromPrices a b = PriceOutcome.Fall ↔ b < a) ∧
      (calculateOutcomeFromPrices a b = PriceOutcome.Neutral ↔ b = a)) ∧
    calculateOutcomeFromPrices 100 120 = PriceOutcome.Rise ∧
    calculateOutcomeFromPrices 100 80 = PriceOutcome.Fall ∧
    calculateOutcomeFromPrices 100 100 = PriceOutcome.Neutral := by
  refine ⟨fun a b => ?_, by decide, by decide, by decide⟩
  unfold calculateOutcomeFromPrices
  refine ⟨?_, ?_, ?_⟩ <;> split_ifs with h1 h2 <;> simp_all <;> omega

/-- C7: a second prediction submission by the same player for the same
(period kind, window) is rejected with an error (`InvalidOutcome`,
reused as "already predicted"), does not overwrite the existing
prediction, and returns the state completely unchanged.  This covers all
three entry points, which share this body
(`predict_daily_outcome` / `predict_weekly_outcome` /
`predict_monthly_outcome`). -/
theorem c7_duplicate_prediction_rejected (s : State) (pid : Nat)
    (o : PriceOutcome) (ct : Nat) (period : PredictionPeriod)
    (p : Player) (q : PlayerPrediction)
    (hp : lookupA s.players pid = some p)
    (hq : lookupA s.predictions (pid, period, periodStartOf period ct) =
      some q) :
    predictOutcomeCore s pid o ct period =
      (s, some ContractError.InvalidOutcome) := by
  simp [predictOutcomeCore, hp, containsA, hq]

/-- C7 witness: in a state where player 2 already predicted for the daily
window starting at 0, a second submission at time 5 is rejected and the
state is returned unchanged. -/
theorem c7_witness :
    lookupA c7state.players 2 = some (mkPlayer 2 0 none) ∧
    lookupA c7state.predictions (2, .Daily, periodStartOf .Daily 5) =
      some c1pred ∧
    predictOutcomeCore c7state 2 PriceOutcome.Fall 5 .Daily =
      (c7state, some ContractError.InvalidOutcome) :=
  ⟨by decide, by decide,
    c7_duplicate_prediction_rejected c7state 2 .Fall 5 .Daily
      (mkPlayer 2 0 none) c1pred (by decide) (by decide)⟩

/-- C10: when the tier penalty exceeds the player's balance,
`penalize_prediction_loss` succeeds, zeroes the balance (deducting only
what was available), yet burns the full tier penalty from the total
supply (capped only by the supply itself) — so with enough supply the
burned amount strictly exceeds the deducted amount. -/
theorem c10_burn_exceeds_deduction (s : State) (pid : Nat)
    (period : PredictionPeriod) (p : Player)
    (hp : lookupA s.players pid = some p)
    (hlt : p.token_balance < fromTokens (rewardTier period))
    (hsup : fromTokens (rewardTier period) ≤ s.total_supply) :
    (penalizePredictionLoss s pid period).2 = none ∧
    lookupA (penalizePredictionLoss s pid period).1.players pid =
      some { p with
             token_balance := 0,
             total_spent := satAdd p.total_spent p.token_balance } ∧
    (penalizePredictionLoss s pid period).1.total_supply =
      s.total_supply - fromTokens (rewardTier period) ∧
    p.token_balance < fromTokens (rewardTier period) := by
  have hnot : ¬ fromTokens (rewardTier period) ≤ p.token_balance := by omega
  refine ⟨?_, ?_, ?_, hlt⟩ <;>
    simp [penalizePredictionLoss, hp, hnot, lookupA_insertA_self, satSub,
      Nat.min_eq_left hsup]

/-- C10 witness: player 2 holds 5 attos, the daily penalty is
`10^20` attos and the supply covers it: the balance goes to 0 (5 attos
deducted) while the supply drops by the full `10^20`. -/
theorem c10_witness :
    lookupA c10state.players 2 = some (mkPlayer 2 5 none) ∧
    (mkPlayer 2 5 none).token_balance < fromTokens (rewardTier .Daily) ∧
    fromTokens (rewardTier .Daily) ≤ c10state.total_supply ∧
    ((penalizePredictionLoss c10state 2 .Daily).2 = none ∧
     lookupA (penalizePredictionLoss c10state 2 .Daily).1.players 2 =
       some { mkPlayer 2 5 none with
              token_balance := 0,
              total_spent := satAdd (mkPlayer 2 5 none).total_spent 5 } ∧
     (penalizePredictionLoss c10state 2 .Daily).1.total_supply =
       c10state.total_supply - fromTokens (rewardTier .Daily) ∧
     (mkPlayer 2 5 none).token_balance < fromTokens (rewardTier .Daily)) :=
  ⟨by decide, by decide, by decide,
    c10_burn_exceeds_deduction c10state 2 .Daily (mkPlayer 2 5 none)
      (by decide) (by decide) (by decide)⟩

/-- C4 counterexample: the local oracle operation `update_market_price`
replaces the stored current-price fact even though the incoming time (5)
is strictly older than the stored time (10) — the claimed strict
last-writer-wins rule does not hold for this update path. -/
theorem c4_counterexample :
    (updateMarketPrice c4state 1 200 5 0).1.current_market_price =
      { price := 200, timestamp := 5 } ∧
    c4state.current_market_price = { price := 100, timestamp := 10 } ∧
    (5 : Nat) < 10 := by decide

/-- C4 (amended): the strict last-writer-wins rule holds for the
cross-chain conflict-resolution handlers — a `GlobalPlayerUpdated` or
`GlobalPriceUpdate` message with timestamp at most the stored one leaves
the stored projection/price unchanged, and a strictly newer unprocessed
one replaces it — while the local `update_market_price` operation
overwrites the price fact unconditionally (`c4_counterexample`). -/
theorem c4_amended_strict_lww :
    (∀ (s : State) (pid te tp lvl cid ts : Nat) (mid : String) (t : Nat)
      (gp : GlobalPlayerInfo),
      lookupA s.global_players pid = some gp → ts ≤ gp.last_updated →
      lookupA (executeMessage s
        (.GlobalPlayerUpdated pid te tp lvl cid ts mid) t).global_players
        pid = some gp) ∧
    (∀ (s : State) (price ts cid : Nat) (mid : String) (t : Nat),
      ts ≤ s.current_market_price.timestamp →
      (executeMessage s (.GlobalPriceUpdate price ts cid mid)
        t).current_market_price = s.current_market_price) ∧
    (∀ (s : State) (pid te tp lvl cid ts : Nat) (mid : String) (t : Nat)
      (gp : GlobalPlayerInfo),
      isMessageProcessed s mid = false →
      lookupA s.global_players pid = some gp → gp.last_updated < ts →
      lookupA (executeMessage s
        (.GlobalPlayerUpdated pid te tp lvl cid ts mid) t).global_players
        pid = some { gp with
          total_earned := te,
          total_profit := tp,
          level := lvl,
          chain_id := cid,
          last_updated := ts }) ∧
    (∀ (s : State) (price ts cid : Nat) (mid : String) (t : Nat),
      isMessageProcessed s mid = false →
      s.current_market_price.timestamp < ts →
      (executeMessage s (.GlobalPriceUpdate price ts cid mid)
        t).current_market_price = { price := price, timestamp := ts }) := by
  refine ⟨?_, ?_, ?_, ?_⟩
  · intro s pid te tp lvl cid ts mid t gp hgp hts
    by_cases hp : isMessageProcessed s mid = true
    · simp [executeMessage, hp, hgp]
    · have hlt : ¬ (gp.last_updated < ts) := by omega
      simp [executeMessage, hp, hgp, hlt, markMessageProcessed]
  · intro s price ts cid mid t hts
    by_cases hp : isMessageProcessed s mid = true
    · simp [executeMessage, hp]
    · have hlt : ¬ (s.current_market_price.timestamp < ts) := by omega
      simp [executeMessage, hp, hlt, markMessageProcessed]
  · intro s pid te tp lvl cid ts mid t gp hp hgp hts
    simp [executeMessage, hp, hgp, hts, markMessageProcessed,
      updateGlobalLeaderboard, lookupA_insertA_self]
  · intro s price ts cid mid t hp hts
    simp [executeMessage, hp, hts, markMessageProcessed]

/-- C4 witness: in `c4state` (stored price time 10), a `GlobalPriceUpdate`
carrying time 5 leaves the stored price fact unchanged. -/
theorem c4_amended_witness :
    (5 : Nat) ≤ c4state.current_market_price.timestamp ∧
    (executeMessage c4state (.GlobalPriceUpdate 999 5 0 "m") 7
      ).current_market_price = c4state.current_market_price :=
  ⟨by decide, c4_amended_strict_lww.2.1 c4state 999 5 0 "m" 7 (by decide)⟩

/-- C1 (evaluating the code at the failing input): in the late-update
scenario — daily window opened at `t0 = 0` with start price 50000, no
price update until `t0 + 25h` with price 55000 — the late
`update_market_price` call succeeds, the window's 24h end has passed, yet
the prediction is still unresolved and the window still has no end
snapshot and is not resolved: `resolve_expired_predictions` only examines
the window of the *current* day, never the expired one. -/
theorem c1_late_update_leaves_window_unresolved :
    c1result.2 = none ∧
    c1window.period_end ≤ 25 * 60 * 60 * 1000000 ∧
    lookupA c1result.1.predictions (2, .Daily, 0) = some c1pred ∧
    c1pred.resolved = false ∧
    lookupA c1result.1.period_prices (.Daily, 0) = some c1window ∧
    c1window.end_price = none ∧
    c1window.resolved = false := by decide

/-- The idempotency store makes a just-marked message processed. -/
theorem isMessageProcessed_mark (s : State) (id : String) (t : Nat) :
    isMessageProcessed (markMessageProcessed s id t) id = true := by
  simp [isMessageProcessed, markMessageProcessed, lookupA_insertA_self]

/-- C5 counterexample: `GlobalLeaderboardUpdate` carries no message
identity and is not idempotent — redelivering the same message at a later
block time moves the global leaderboard's last-updated time, so the state
after two applications differs from the state after one. -/
theorem c5_counterexample :
    (executeMessage baseState c5msg 0).global_leaderboard.last_updated = 0 ∧
    (executeMessage (executeMessage baseState c5msg 0) c5msg 1
      ).global_leaderboard.last_updated = 1 ∧
    executeMessage (executeMessage baseState c5msg 0) c5msg 1 ≠
      executeMessage baseState c5msg 0 := by decide

/-- C5 (amended): every message variant except `GlobalLeaderboardUpdate`
is idempotent — applying the same message twice, at any pair of receiving
block times, produces the state of applying it once.  The variants
carrying a message identity are gated by the idempotency store; the
local-event variants are no-ops; `ChainRegistered` re-inserts the same
registry entry. -/
theorem c5_amended_idempotent (m : Message) (s : State) (t1 t2 : Nat)
    (h : isLeaderboardUpdateMsg m = false) :
    executeMessage (executeMessage s m t1) m t2 = executeMessage s m t1 := by
  cases m with
  | GlobalMarketCreated a b c d mid =>
    by_cases hp : isMessageProcessed s mid = true
    · simp [executeMessage, hp]
    · simp [executeMessage, hp, isMessageProcessed_mark]
  | GlobalPlayerRegistered a b c mid =>
    by_cases hp : isMessageProcessed s mid = true
    · simp [executeMessage, hp]
    · simp [executeMessage, hp, isMessageProcessed_mark]
  | GlobalPlayerUpdated a b c d e f mid =>
    by_cases hp : isMessageProcessed s mid = true
    · simp [executeMessage, hp]
    · simp [executeMessage, hp, isMessageProcessed_mark]
  | GlobalGuildCreated a b c d mid =>
    by_cases hp : isMessageProcessed s mid = true
    · simp [executeMessage, hp]
    · simp [executeMessage, hp, isMessageProcessed_mark]
  | GlobalPriceUpdate a b c mid =>
    by_cases hp : isMessageProcessed s mid = true
    · simp [executeMessage, hp]
    · simp [executeMessage, hp, isMessageProcessed_mark]
  | GlobalLeaderboardUpdate a b c d => simp [isLeaderboardUpdateMsg] at h
  | ChainRegistered cid ts => simp [executeMessage, insertA_insertA_self]
  | MarketCreated a b => rfl
  | MarketResolved a b => rfl
  | TradeExecuted a b c d e => rfl
  | PlayerLeveledUp a b => rfl
  | AchievementUnlocked a b => rfl
  | GuildCreated a b => rfl
  | PredictionMade a b c => rfl
  | PredictionResolved a b c => rfl

/-- C3: when a guild member's prediction resolves, the same unscaled tier
amount is applied to every guild member, and the predicting player
receives it twice — once from the individual award/penalty and once more
from the guild loop.  Stated for the reward cascade
(`award_prediction_reward` then `award_guild_prediction_reward`) and the
penalty cascade (`penalize_prediction_loss` then
`penalize_guild_prediction_loss`), composed exactly as
`resolve_prediction` runs them.  The level-threshold hypothesis keeps the
XP side-path (achievement payouts on level-up) out of the balances. -/
theorem c3_guild_cascade_double_application (s : State) (pid gid : Nat)
    (period : PredictionPeriod) (cid t : Nat) (p : Player) (guild : Guild)
    (hp : lookupA s.players pid = some p)
    (hg : p.guild_id = some gid)
    (hguild : lookupA s.guilds gid = some guild)
    (hmem : pid ∈ guild.members)
    (hnd : guild.members.Nodup)
    (hxp : ∀ m ∈ guild.members, ∃ q, lookupA s.players m = some q ∧
      q.experience_points + xpTier period + guildXpTier period <
        levelNeeded q.level) :
    (awardPredictionReward s pid period cid t).2 = none ∧
    (awardGuildPredictionReward (awardPredictionReward s pid period cid t).1
      pid period t).2 = none ∧
    (∀ m q, m ∈ guild.members → lookupA s.players m = some q →
      (lookupA (awardGuildPredictionReward
        (awardPredictionReward s pid period cid t).1 pid period t).1.players
        m).map Player.token_balance =
        some (if m = pid then
          satAdd (satAdd q.token_balance (fromTokens (rewardTier period)))
            (fromTokens (rewardTier period))
        else satAdd q.token_balance (fromTokens (rewardTier period)))) ∧
    (penalizePredictionLoss s pid period).2 = none ∧
    (penalizeGuildPredictionLoss (penalizePredictionLoss s pid period).1
      pid period).2 = none ∧
    (∀ m q, m ∈ guild.members → lookupA s.players m = some q →
      (lookupA (penalizeGuildPredictionLoss
        (penalizePredictionLoss s pid period).1 pid period).1.players
        m).map Player.token_balance =
        some (if m = pid then
          q.token_balance - fromTokens (rewardTier period) -
            fromTokens (rewardTier period)
        else q.token_balance - fromTokens (rewardTier period))) := by
  have hpx : p.experience_points + xpTier period + guildXpTier period <
      levelNeeded p.level := by
    obtain ⟨q, hq, hx⟩ := hxp pid hmem
    rw [hp] at hq
    cases hq
    exact hx
  have hnl1 : p.experience_points + xpTier period < levelNeeded p.level := by
    omega
  obtain ⟨ha2, hapl, _hasup, hagl⟩ :=
    awardPredictionReward_spec s pid period cid t p hp hnl1
  have hp1 : lookupA (awardPredictionReward s pid period cid t).1.players pid =
      some (awardUpd (fromTokens (rewardTier period)) (xpTier period) p) := by
    rw [hapl]; exact lookupA_insertA_self _ _ _
  have hg1 : (awardUpd (fromTokens (rewardTier period)) (xpTier period)
      p).guild_id = some gid := hg
  have hguild1 : lookupA (awardPredictionReward s pid period cid t).1.guilds
      gid = some guild := by rw [hagl]; exact hguild
  have hxp1 : ∀ m ∈ guild.members, ∃ q',
      lookupA (awardPredictionReward s pid period cid t).1.players m =
        some q' ∧
      q'.experience_points + guildXpTier period < levelNeeded q'.level := by
    intro m hm
    by_cases hmp : m = pid
    · subst hmp
      refine ⟨awardUpd (fromTokens (rewardTier period)) (xpTier period) p,
        hp1, ?_⟩
      simpa [awardUpd] using hpx
    · obtain ⟨q, hq, hx⟩ := hxp m hm
      refine ⟨q, ?_, by omega⟩
      rw [hapl, lookupA_insertA_ne _ _ _ _ hmp]
      exact hq
  obtain ⟨hg2, hgq, _hgsup⟩ := awardGuildPredictionReward_spec
    (awardPredictionReward s pid period cid t).1 pid gid period t
    (awardUpd (fromTokens (rewardTier period)) (xpTier period) p) guild
    hp1 hg1 hguild1 hnd hxp1
  obtain ⟨hpe2, hppl, _hpsup, hpgl⟩ :=
    penalizePredictionLoss_spec s pid period p hp
  have hpp1 : lookupA (penalizePredictionLoss s pid period).1.players pid =
      some (penaltyUpd (fromTokens (rewardTier period)) p) := by
    rw [hppl]; exact lookupA_insertA_self _ _ _
  have hpg1 : (penaltyUpd (fromTokens (rewardTier period)) p).guild_id =
      some gid := hg
  have hpguild1 : lookupA (penalizePredictionLoss s pid period).1.guilds gid =
      some guild := by rw [hpgl]; exact hguild
  have hpres1 : ∀ m ∈ guild.members, ∃ q',
      lookupA (penalizePredictionLoss s pid period).1.players m = some q' := by
    intro m hm
    by_cases hmp : m = pid
    · subst hmp; exact ⟨_, hpp1⟩
    · obtain ⟨q, hq, _⟩ := hxp m hm
      refine ⟨q, ?_⟩
      rw [hppl, lookupA_insertA_ne _ _ _ _ hmp]
      exact hq
  obtain ⟨hpg2, hpgq, _hpgsup⟩ := penalizeGuildPredictionLoss_spec
    (penalizePredictionLoss s pid period).1 pid gid period
    (penaltyUpd (fromTokens (rewardTier period)) p) guild
    hpp1 hpg1 hpguild1 hnd hpres1
  refine ⟨ha2, hg2, ?_, hpe2, hpg2, ?_⟩
  · intro m q hm hq
    rw [hgq m]
    by_cases hmp : m = pid
    · subst hmp
      rw [hp] at hq
      cases hq
      simp [hm, hp1, awardUpd]
    · have hlq : lookupA (awardPredictionReward s pid period cid t).1.players
          m = some q := by
        rw [hapl, lookupA_insertA_ne _ _ _ _ hmp]; exact hq
      simp [hm, hlq, hmp, awardUpd]
  · intro m q hm hq
    rw [hpgq m]
    by_cases hmp : m = pid
    · subst hmp
      rw [hp] at hq
      cases hq
      simp [hm, hpp1, penaltyUpd]
    · have hlq : lookupA (penalizePredictionLoss s pid period).1.players m =
          some q := by
        rw [hppl, lookupA_insertA_ne _ _ _ _ hmp]; exact hq
      simp [hm, hlq, hmp, penaltyUpd]

/-- C3 witness: in the three-member-guild state, resolving player 1's
correct daily prediction leaves player 1 with the tier applied twice and
player 2 with it applied once. -/
theorem c3_witness :
    ((lookupA (awardGuildPredictionReward
      (awardPredictionReward c2state 1 .Daily 0 0).1 1 .Daily 0).1.players
      1).map Player.token_balance =
      some (if 1 = 1 then
        satAdd (satAdd (c2player 1).token_balance
          (fromTokens (rewardTier .Daily))) (fromTokens (rewardTier .Daily))
      else satAdd (c2player 1).token_balance
        (fromTokens (rewardTier .Daily)))) ∧
    ((lookupA (awardGuildPredictionReward
      (awardPredictionReward c2state 1 .Daily 0 0).1 1 .Daily 0).1.players
      2).map Player.token_balance =
      some (if 2 = 1 then
        satAdd (satAdd (c2player 2).token_balance
          (fromTokens (rewardTier .Daily))) (fromTokens (rewardTier .Daily))
      else satAdd (c2player 2).token_balance
        (fromTokens (rewardTier .Daily)))) := by
  have h := c3_guild_cascade_double_application c2state 1 10 .Daily 0 0
    (c2player 1) c2guild (by decide) (by decide) (by decide) (by decide)
    (by decide)
    (by
      intro m hm
      simp [c2guild] at hm
      rcases hm with rfl | rfl | rfl
      · exact ⟨c2player 1, by decide, by decide⟩
      · exact ⟨c2player 2, by decide, by decide⟩
      · exact ⟨c2player 3, by decide, by decide⟩)
  exact ⟨h.2.2.1 1 (c2player 1) (by decide) (by decide),
    h.2.2.1 2 (c2player 2) (by decide) (by decide)⟩

/-- C6: an insufficient balance never makes a penalty fail — the
individual penalty succeeds and zeroes the balance (deducting only what
was available), and the guild cascade succeeds and applies the clamped
deduction to every member independently, balances staying at their
truncated (never negative) values. -/
theorem c6_penalty_clamped_cascade (s : State) (pid : Nat)
    (period : PredictionPeriod) (p : Player)
    (hp : lookupA s.players pid = some p)
    (hlt : p.token_balance < fromTokens (rewardTier period)) :
    (penalizePredictionLoss s pid period).2 = none ∧
    (lookupA (penalizePredictionLoss s pid period).1.players pid).map
      Player.token_balance = some 0 ∧
    (∀ gid guild, p.guild_id = some gid → lookupA s.guilds gid = some guild →
      guild.members.Nodup →
      (∀ m ∈ guild.members, ∃ q, lookupA s.players m = some q) →
      (penalizeGuildPredictionLoss s pid period).2 = none ∧
      (∀ m q, m ∈ guild.members → lookupA s.players m = some q →
        (lookupA (penalizeGuildPredictionLoss s pid period).1.players m).map
          Player.token_balance =
          some (q.token_balance - fromTokens (rewardTier period)))) := by
  obtain ⟨he, hpl, _, _⟩ := penalizePredictionLoss_spec s pid period p hp
  refine ⟨he, ?_, ?_⟩
  · rw [hpl, lookupA_insertA_self]
    simp [penaltyUpd, Nat.sub_eq_zero_of_le (Nat.le_of_lt hlt)]
  · intro gid guild hg hguild hnd hpres
    obtain ⟨he2, hq, _⟩ := penalizeGuildPredictionLoss_spec s pid gid period
      p guild hp hg hguild hnd hpres
    refine ⟨he2, fun m q hm hq' => ?_⟩
    rw [hq m]
    simp [hm, hq', penaltyUpd]

/-- C6 witness: player 1 (5 attos) takes the daily penalty: the
individual penalty zeroes the balance, and the guild cascade still
reaches player 2, whose 250-token balance drops by the 100-token tier. -/
theorem c6_witness :
    (penalizePredictionLoss c6state 1 .Daily).2 = none ∧
    (lookupA (penalizePredictionLoss c6state 1 .Daily).1.players 1).map
      Player.token_balance = some 0 ∧
    (penalizeGuildPredictionLoss c6state 1 .Daily).2 = none ∧
    (lookupA (penalizeGuildPredictionLoss c6state 1 .Daily).1.players 1).map
      Player.token_balance =
      some ((mkPlayer 1 5 (some 10)).token_balance -
        fromTokens (rewardTier .Daily)) ∧
    (lookupA (penalizeGuildPredictionLoss c6state 1 .Daily).1.players 2).map
      Player.token_balance =
      some ((mkPlayer 2 (fromTokens 250) (some 10)).token_balance -
        fromTokens (rewardTier .Daily)) := by
  have h := c6_penalty_clamped_cascade c6state 1 .Daily
    (mkPlayer 1 5 (some 10)) (by decide) (by decide)
  have h3 := h.2.2 10 c6guild (by decide) (by decide) (by decide)
    (by
      intro m hm
      simp [c6guild] at hm
      rcases hm with rfl | rfl
      · exact ⟨mkPlayer 1 5 (some 10), by decide⟩
      · exact ⟨mkPlayer 2 (fromTokens 250) (some 10), by decide⟩)
  exact ⟨h.1, h.2.1, h3.1,
    h3.2 1 (mkPlayer 1 5 (some 10)) (by decide) (by decide),
    h3.2 2 (mkPlayer 2 (fromTokens 250) (some 10)) (by decide) (by decide)⟩

/-- C2 counterexample: resolving one correct daily prediction in a
3-member guild does *not* increase the supply by 3 × the daily tier, and
the predicting member's balance does *not* increase by exactly the tier:
the individual award mints one extra tier, the guild supply update
re-applies the 10^18 token scaling to the atto-denominated tier, and the
predictor is paid twice. -/
theorem c2_counterexample :
    c2result.total_supply =
      satAdd (satAdd 0 (fromTokens 100))
        (fromTokens (satMul (fromTokens 100) 3)) ∧
    c2result.total_supply ≠ 3 * fromTokens 100 ∧
    (lookupA c2result.players 1).map Player.token_balance =
      some (2 * fromTokens 100) ∧
    (lookupA c2result.players 1).map Player.token_balance ≠
      some (fromTokens 100) ∧
    (lookupA c2result.players 2).map Player.token_balance =
      some (fromTokens 100) ∧
    (lookupA c2result.players 3).map Player.token_balance =
      some (fromTokens 100) := by
  have hp : lookupA c2state.players 1 = some (c2player 1) := by decide
  have hnl : (c2player 1).experience_points + xpTier .Daily <
      levelNeeded (c2player 1).level := by decide
  obtain ⟨ha2, hapl, hasup, hagl⟩ :=
    awardPredictionReward_spec c2state 1 .Daily 0 0 (c2player 1) hp hnl
  have hp1 : lookupA (awardPredictionReward c2state 1 .Daily 0 0).1.players
      1 = some (awardUpd (fromTokens (rewardTier .Daily)) (xpTier .Daily)
        (c2player 1)) := by
    rw [hapl]; exact lookupA_insertA_self _ _ _
  have hg1 : (awardUpd (fromTokens (rewardTier .Daily)) (xpTier .Daily)
      (c2player 1)).guild_id = some 10 := by
    simp [awardUpd, c2player, mkPlayer]
  have hguild1 : lookupA (awardPredictionReward c2state 1 .Daily 0
      0).1.guilds 10 = some c2guild := by
    rw [hagl]; decide
  have hxp1 : ∀ m ∈ c2guild.members, ∃ q',
      lookupA (awardPredictionReward c2state 1 .Daily 0 0).1.players m =
        some q' ∧
      q'.experience_points + guildXpTier .Daily < levelNeeded q'.level := by
    intro m hm
    simp [c2guild] at hm
    rcases hm with rfl | rfl | rfl
    · exact ⟨awardUpd (fromTokens (rewardTier .Daily)) (xpTier .Daily)
        (c2player 1), hp1, by decide⟩
    · refine ⟨c2player 2, ?_, by decide⟩
      rw [hapl, lookupA_insertA_ne _ _ _ _ (by decide)]
      decide
    · refine ⟨c2player 3, ?_, by decide⟩
      rw [hapl, lookupA_insertA_ne _ _ _ _ (by decide)]
      decide
  obtain ⟨hg2, hgq, hgsup⟩ := awardGuildPredictionReward_spec
    (awardPredictionReward c2state 1 .Daily 0 0).1 1 10 .Daily 0
    (awardUpd (fromTokens (rewardTier .Daily)) (xpTier .Daily) (c2player 1))
    c2guild hp1 hg1 hguild1 (by decide) hxp1
  have h1m : (1 : Nat) ∈ c2guild.members := by decide
  have h2m : (2 : Nat) ∈ c2guild.members := by decide
  have h3m : (3 : Nat) ∈ c2guild.members := by decide
  have hb1 : (lookupA c2result.players 1).map Player.token_balance =
      some (2 * fromTokens 100) := by
    unfold c2result
    rw [hgq 1]
    simp only [h1m, if_true, hp1]
    decide
  have hb2 : (lookupA c2result.players 2).map Player.token_balance =
      some (fromTokens 100) := by
    unfold c2result
    rw [hgq 2]
    simp only [h2m, if_true]
    rw [hapl, lookupA_insertA_ne _ _ _ _ (by decide)]
    decide
  have hb3 : (lookupA c2result.players 3).map Player.token_balance =
      some (fromTokens 100) := by
    unfold c2result
    rw [hgq 3]
    simp only [h3m, if_true]
    rw [hapl, lookupA_insertA_ne _ _ _ _ (by decide)]
    decide
  have hsup : c2result.total_supply =
      satAdd (satAdd 0 (fromTokens 100))
        (fromTokens (satMul (fromTokens 100) 3)) := by
    unfold c2result
    rw [hgsup, hasup]
    rfl
  refine ⟨hsup, ?_, hb1, ?_, hb2, hb3⟩
  · rw [hsup]; decide
  · rw [hb1]; decide

/-- C2 (amended): in a 3-member guild with one member's correct daily
prediction (no member crossing a level threshold), each non-predicting
member's balance grows by exactly the daily tier, the predicting member's
balance grows by exactly twice the tier, and the total supply grows by
the tier (individual mint) plus `from_tokens(tier_attos * 3)` (the guild
supply update applies the token scaling to an already atto-denominated
amount) — not by 3 × the tier. -/
theorem c2_amended_guild_scenario (s : State) (pid gid : Nat)
    (period : PredictionPeriod) (cid t : Nat) (p : Player) (guild : Guild)
    (hp : lookupA s.players pid = some p)
    (hg : p.guild_id = some gid)
    (hguild : lookupA s.guilds gid = some guild)
    (hmem : pid ∈ guild.members)
    (hlen : guild.members.length = 3)
    (hnd : guild.members.Nodup)
    (hxp : ∀ m ∈ guild.members, ∃ q, lookupA s.players m = some q ∧
      q.experience_points + xpTier period + guildXpTier period <
        levelNeeded q.level) :
    (awardPredictionReward s pid period cid t).2 = none ∧
    (awardGuildPredictionReward (awardPredictionReward s pid period cid t).1
      pid period t).2 = none ∧
    (awardGuildPredictionReward (awardPredictionReward s pid period cid t).1
      pid period t).1.total_supply =
      satAdd (satAdd s.total_supply (fromTokens (rewardTier period)))
        (fromTokens (satMul (fromTokens (rewardTier period)) 3)) ∧
    (∀ m q, m ∈ guild.members → lookupA s.players m = some q →
      (lookupA (awardGuildPredictionReward
        (awardPredictionReward s pid period cid t).1 pid period t).1.players
        m).map Player.token_balance =
        some (if m = pid then
          satAdd (satAdd q.token_balance (fromTokens (rewardTier period)))
            (fromTokens (rewardTier period))
        else satAdd q.token_balance (fromTokens (rewardTier period)))) := by
  have hpx : p.experience_points + xpTier period + guildXpTier period <
      levelNeeded p.level := by
    obtain ⟨q, hq, hx⟩ := hxp pid hmem
    rw [hp] at hq
    cases hq
    exact hx
  have hnl1 : p.experience_points + xpTier period < levelNeeded p.level := by
    omega
  obtain ⟨ha2, hapl, hasup, hagl⟩ :=
    awardPredictionReward_spec s pid period cid t p hp hnl1
  have hp1 : lookupA (awardPredictionReward s pid period cid t).1.players pid =
      some (awardUpd (fromTokens (rewardTier period)) (xpTier period) p) := by
    rw [hapl]; exact lookupA_insertA_self _ _ _
  have hg1 : (awardUpd (fromTokens (rewardTier period)) (xpTier period)
      p).guild_id = some gid := hg
  have hguild1 : lookupA (awardPredictionReward s pid period cid t).1.guilds
      gid = some guild := by rw [hagl]; exact hguild
  have hxp1 : ∀ m ∈ guild.members, ∃ q',
      lookupA (awardPredictionReward s pid period cid t).1.players m =
        some q' ∧
      q'.experience_points + guildXpTier period < levelNeeded q'.level := by
    intro m hm
    by_cases hmp : m = pid
    · subst hmp
      refine ⟨awardUpd (fromTokens (rewardTier period)) (xpTier period) p,
        hp1, ?_⟩
      simpa [awardUpd] using hpx
    · obtain ⟨q, hq, hx⟩ := hxp m hm
      refine ⟨q, ?_, by omega⟩
      rw [hapl, lookupA_insertA_ne _ _ _ _ hmp]
      exact hq
  obtain ⟨hg2, hgq, hgsup⟩ := awardGuildPredictionReward_spec
    (awardPredictionReward s pid period cid t).1 pid gid period t
    (awardUpd (fromTokens (rewardTier period)) (xpTier period) p) guild
    hp1 hg1 hguild1 hnd hxp1
  refine ⟨ha2, hg2, ?_, ?_⟩
  · rw [hgsup, hasup, hlen]
  · intro m q hm hq
    rw [hgq m]
    by_cases hmp : m = pid
    · subst hmp
      rw [hp] at hq
      cases hq
      simp [hm, hp1, awardUpd]
    · have hlq : lookupA (awardPredictionReward s pid period cid
          t).1.players m = some q := by
        rw [hapl, lookupA_insertA_ne _ _ _ _ hmp]; exact hq
      simp [hm, hlq, hmp, awardUpd]

/-- C2 witness: the amended statement applied to the concrete 3-member
guild state with zero balances and empty supply. -/
theorem c2_amended_witness :
    (awardPredictionReward c2state 1 .Daily 0 0).2 = none ∧
    (awardGuildPredictionReward (awardPredictionReward c2state 1 .Daily 0 0).1
      1 .Daily 0).2 = none ∧
    (awardGuildPredictionReward (awardPredictionReward c2state 1 .Daily 0 0).1
      1 .Daily 0).1.total_supply =
      satAdd (satAdd c2state.total_supply (fromTokens (rewardTier .Daily)))
        (fromTokens (satMul (fromTokens (rewardTier .Daily)) 3)) := by
  have h := c2_amended_guild_scenario c2state 1 10 .Daily 0 0 (c2player 1)
    c2guild (by decide) (by decide) (by decide) (by decide) (by decide)
    (by decide)
    (by
      intro m hm
      simp [c2guild] at hm
      rcases hm with rfl | rfl | rfl
      · exact ⟨c2player 1, by decide, by decide⟩
      · exact ⟨c2player 2, by decide, by decide⟩
      · exact ⟨c2player 3, by decide, by decide⟩)
  exact ⟨h.1, h.2.1, h.2.2.1⟩

/-- C8: once a `PredictionWindow` is resolved (with its snapshots and its
derived outcome, the shape `resolve_prediction` writes) no prediction
operation — prediction submission for any period kind, or a price update
with its expiry sweep — changes the window's record (outcome or
snapshots), and once a `PlayerPrediction` is resolved (its correctness
set) its record never changes.  The key-consistency hypothesis reflects
that the code always stores a prediction under its own player id. -/
theorem c8_resolved_immutable (s : State) (op : Op) (ct chainId : Nat)
    (hwf : wfPredKeys s) :
    (∀ k pd, lookupA s.period_prices k = some pd → pd.resolved = true →
      wfResolvedData pd →
      lookupA (applyOp s op ct chainId).period_prices k = some pd) ∧
    (∀ pk q, lookupA s.predictions pk = some q → q.resolved = true →
      lookupA (applyOp s op ct chainId).predictions pk = some q) := by
  have h : resolvedPreserved s (applyOp s op ct chainId) := by
    cases op with
    | PredictDaily pid o =>
      exact (predictOutcomeCore_resolvedPreserved s pid o ct .Daily hwf).1
    | PredictWeekly pid o =>
      exact (predictOutcomeCore_resolvedPreserved s pid o ct .Weekly hwf).1
    | PredictMonthly pid o =>
      exact (predictOutcomeCore_resolvedPreserved s pid o ct .Monthly hwf).1
    | UpdateMarketPrice caller price =>
      exact (updateMarketPrice_resolvedPreserved s caller price ct chainId
        hwf).1
  exact h

/-- C8 witness: a resolved window and resolved prediction survive a price
update arriving a full day after the window's end. -/
theorem c8_witness :
    lookupA (applyOp c8state (.UpdateMarketPrice 1 500) (2 * dayMicros)
      0).period_prices (.Daily, 0) = some c8window ∧
    lookupA (applyOp c8state (.UpdateMarketPrice 1 500) (2 * dayMicros)
      0).predictions (2, .Daily, 0) = some c8pred := by
  have hwf : wfPredKeys c8state := by
    intro pk q h
    simp only [c8state, baseState, lookupA] at h
    split at h
    · rename_i heq
      cases h
      rw [← heq]
      rfl
    · exact absurd h (by simp)
  have h := c8_resolved_immutable c8state (.UpdateMarketPrice 1 500)
    (2 * dayMicros) 0 hwf
  exact ⟨h.1 (.Daily, 0) c8window (by decide) (by decide)
      ⟨{ price := 100, timestamp := 0 }, { price := 120, timestamp := 3 },
        by decide, by decide, by decide⟩,
    h.2 (2, .Daily, 0) c8pred (by decide) (by decide)⟩

/-- C5 witness: a duplicate `GlobalPlayerRegistered` message (same
message identity) applied at block times 4 and 9 leaves the state of the
first application unchanged — in particular exactly one projection entry
exists. -/
theorem c5_amended_witness :
    isLeaderboardUpdateMsg (.GlobalPlayerRegistered 3 none 0 "w") = false ∧
    executeMessage
      (executeMessage baseState (.GlobalPlayerRegistered 3 none 0 "w") 4)
      (.GlobalPlayerRegistered 3 none 0 "w") 9 =
      executeMessage baseState (.GlobalPlayerRegistered 3 none 0 "w") 4 ∧
    (executeMessage
      (executeMessage baseState (.GlobalPlayerRegistered 3 none 0 "w") 4)
      (.GlobalPlayerRegistered 3 none 0 "w") 9).global_players.length = 1 :=
  ⟨by decide,
    c5_amended_idempotent (.GlobalPlayerRegistered 3 none 0 "w") baseState 4 9
      (by decide),
    by decide⟩

end Roxy
